import Mathlib

/-!
Verification of the receipt normalization and monthly aggregation engine of
the `application_lab` repository (src/receipt/receipt_parser.py,
receipt_manager.py, receipt_store.py, type_def.py).

The OCR result consumed by the parser is a schema-free nested Python value
(dicts, lists, scalars, None).  We embed that value space as `PyVal`,
Python numbers (int/float) as rationals, and Python exceptions as an
explicit `Except PErr` result: every primitive operation that can raise in
Python (`[]` on a dict, `.get` on a non-dict, `in` on a non-container)
returns `Except`, and the embedded functions propagate those errors exactly
where the source would let an exception escape.
-/

/-- Python value tree: `None`, `bool`, numbers (int/float modelled as `ℚ`),
`str`, `list`, and string-keyed `dict` (the only dict keys that occur in the
OCR payload). -/
inductive PyVal where
  | none
  | bool (b : Bool)
  | num (q : ℚ)
  | str (s : String)
  | list (xs : List PyVal)
  | dict (d : List (String × PyVal))

/-- Embedded Python exception outcome: the distinguished
`ValueError("NOT A RECEIPT")` raised by `parse_receipt_dict`, versus any
other runtime exception (TypeError / AttributeError / KeyError / reaching
into a malformed value). -/
inductive PErr where
  | notAReceipt
  | typeErr
deriving DecidableEq

/-- Python truthiness (`bool(v)`) for the embedded value space. -/
def pyTruthy : PyVal → Bool
  | .none => false
  | .bool b => b
  | .num q => q != 0
  | .str s => s != ""
  | .list xs => !xs.isEmpty
  | .dict d => !d.isEmpty

/-- `d.get(k)` on an actual dict: `None` when the key is missing. -/
def dictGet (d : List (String × PyVal)) (k : String) : PyVal :=
  (d.lookup k).getD .none

/-- `v.get(k)`: only dicts have `.get`; anything else raises AttributeError. -/
def pyGet (v : PyVal) (k : String) : Except PErr PyVal :=
  match v with
  | .dict d => .ok (dictGet d k)
  | _ => .error .typeErr

/-- Substring test (`needle in hay` for Python strings). -/
def listIsInfix (needle : List Char) : List Char → Bool
  | [] => needle.isEmpty
  | c :: t => needle.isPrefixOf (c :: t) || listIsInfix needle t

/-- `k in v`: dict key test, substring test on `str`, membership on `list`
(a string compares equal only to an equal string); `in` on a scalar raises
TypeError. -/
def pyContains (v : PyVal) (k : String) : Except PErr Bool :=
  match v with
  | .dict d => .ok (d.lookup k).isSome
  | .str s => .ok (listIsInfix k.data s.data)
  | .list xs => .ok (xs.any fun x => match x with | .str t => t == k | _ => false)
  | _ => .error .typeErr

/-- `v[k]` with a string key: KeyError when missing, TypeError off dicts. -/
def pyIndex (v : PyVal) (k : String) : Except PErr PyVal :=
  match v with
  | .dict d => match d.lookup k with
    | some x => .ok x
    | Option.none => .error .typeErr
  | _ => .error .typeErr

/-- `v[0]`: first element of a list (IndexError when empty), first character
of a str; TypeError otherwise. -/
def pySubscriptZero (v : PyVal) : Except PErr PyVal :=
  match v with
  | .list (x :: _) => .ok x
  | .list [] => .error .typeErr
  | .str s =>
    match s.data with
    | c :: _ => .ok (.str ⟨[c]⟩)
    | [] => .error .typeErr
  | _ => .error .typeErr

/-! ### String helpers (Python `str` methods used by the source) -/

/-- Characters matched by Python's `\s` / stripped by `str.strip()`
(ASCII whitespace plus the common Unicode spaces seen in OCR text). -/
def isPySpace (c : Char) : Bool :=
  c == ' ' || c == '\t' || c == '\n' || c == '\r' || c == '\x0b' || c == '\x0c' ||
  c == ' ' || c == '　'

/-- `str.strip()`. -/
def pyStrip (s : String) : String :=
  ⟨((s.data.dropWhile isPySpace).reverse.dropWhile isPySpace).reverse⟩

/-- `str.lstrip(":")`. -/
def lstripColons (s : String) : String := ⟨s.data.dropWhile (· == ':')⟩

/-- Numeric value of a decimal digit character. -/
def digitVal (c : Char) : Nat := c.toNat - 48

/-- Value of a most-significant-first decimal digit list. -/
def digitsToNat (cs : List Char) : Nat := cs.foldl (fun a c => 10 * a + digitVal c) 0

/-- The decimal digit character for `n < 10`. -/
def digitChar (n : Nat) : Char := Char.ofNat (48 + n)

/-- The `k` least-significant decimal digits of `n`, zero padded,
most significant first (models `%02d`-style zero-padded formatting). -/
def padDigits : Nat → Nat → List Char
  | 0, _ => []
  | k + 1, n => digitChar (n / 10 ^ k % 10) :: padDigits k n

/-- Fuel-indexed unpadded decimal digits (structural recursion; the fuel
is always sufficient, see `natDigitsAux_congr`). -/
def natDigitsAux : Nat → Nat → List Char
  | 0, _ => []
  | fuel + 1, n =>
    if n < 10 then [digitChar n] else natDigitsAux fuel (n / 10) ++ [digitChar (n % 10)]

/-- Unpadded decimal digits of `n`, most significant first (models Python's
`str(int)` / glibc `%Y` formatting, which does not zero-pad the year). -/
def natDigits (n : Nat) : List Char := natDigitsAux (n + 1) n

/-- The fuel does not matter once it exceeds the argument. -/
theorem natDigitsAux_congr :
    ∀ (f1 f2 n : Nat), n < f1 → n < f2 → natDigitsAux f1 n = natDigitsAux f2 n := by
  intro f1
  induction f1 with
  | zero => intro f2 n h1; omega
  | succ f ih =>
    intro f2 n h1 h2
    cases f2 with
    | zero => omega
    | succ f2 =>
      simp only [natDigitsAux]
      split_ifs with h
      · rfl
      · have hd : n / 10 < n := Nat.div_lt_self (by omega) (by omega)
        rw [ih f2 (n / 10) (by omega) (by omega)]

/-- The defining unfolding of `natDigits`. -/
theorem natDigits_unfold (n : Nat) :
    natDigits n = if n < 10 then [digitChar n] else natDigits (n / 10) ++ [digitChar (n % 10)] := by
  show natDigitsAux (n + 1) n = _
  simp only [natDigitsAux]
  split_ifs with h
  · rfl
  · have hd : n / 10 < n := Nat.div_lt_self (by omega) (by omega)
    rw [natDigitsAux_congr n (n / 10 + 1) (n / 10) (by omega) (by omega)]
    rfl

/-- `str.split(":")` (keeps empty parts, like Python). -/
def splitColonList : List Char → List (List Char)
  | [] => [[]]
  | c :: rest =>
    let r := splitColonList rest
    if c == ':' then [] :: r
    else match r with
      | h :: t => (c :: h) :: t
      | [] => [[c]]

/-- `str.zfill(2)` for the strings produced by `split` (no sign handling
is needed there). -/
def zfill2 (cs : List Char) : List Char :=
  if cs.length ≥ 2 then cs else List.replicate (2 - cs.length) '0' ++ cs

/-- `str.replace(":", "")`: removing every colon. -/
def removeColons (s : String) : String := ⟨s.data.filter (· != ':')⟩

/-! ### Field extractor (`receipt_parser.py`, `_extract_*` / `_pick_*`)

Each extractor comes in two forms: the `Except`-valued one mirrors the
source statement by statement, with every potentially-raising Python
operation explicit; the primed pure form (`...D`) is what the `Except`
form provably always returns (`extract_never_raises` below), and is used
when the enclosing code guarantees the input is a dict. -/

/-- `node[k]` guarded by `k in node` for a value already known to be a
string: one `if k in node and isinstance(node[k], str)` line of
`_extract_text_value`. -/
def tryKeyStr (d : List (String × PyVal)) (k : String) : Except PErr (Option String) :=
  if (d.lookup k).isSome then do
    let v ← pyIndex (.dict d) k
    match v with
    | .str s => pure (some s)
    | _ => pure Option.none
  else pure Option.none

/-- `_extract_text_value`: pull a string out of a node (`None` → `""`,
bare string, or a dict carrying one of the recognized value keys, first
match wins). -/
def extract_text_value (node : PyVal) : Except PErr String :=
  match node with
  | .none => .ok ""
  | .str s => .ok s
  | .dict d => do
    let r1 ← tryKeyStr d "valueString"
    match r1 with
    | some s => pure s
    | _ => do
      let r2 ← tryKeyStr d "content"
      match r2 with
      | some s => pure s
      | _ => do
        let r3 ← tryKeyStr d "value"
        match r3 with
        | some s => pure s
        | _ => do
          let r4 ← tryKeyStr d "valueDate"
          match r4 with
          | some s => pure s
          | _ => do
            let r5 ← tryKeyStr d "valueTime"
            match r5 with
            | some s => pure s
            | _ => pure ""
  | _ => .ok ""

/-- Pure value of one `if k in node and isinstance(node[k], str)` test. -/
def lookupStr (d : List (String × PyVal)) (k : String) : Option String :=
  match d.lookup k with
  | some (.str s) => some s
  | _ => Option.none

/-- Pure form of `_extract_text_value`. -/
def extract_text_valueD : PyVal → String
  | .str s => s
  | .dict d =>
    (((((lookupStr d "valueString").orElse fun _ => lookupStr d "content").orElse
        fun _ => lookupStr d "value").orElse
        fun _ => lookupStr d "valueDate").orElse
        fun _ => lookupStr d "valueTime").getD ""
  | _ => ""

/-- `isinstance(v, (int, float))` (which is true for `bool`) followed by
`float(v)`. -/
def numOf : PyVal → Option ℚ
  | .num q => some q
  | .bool b => some (if b then 1 else 0)
  | _ => Option.none

/-- `_extract_number_value`: pull a number out of a node (bare number,
`valueNumber`, the `amount` of a `valueCurrency` dict, or a numeric
`value`); `None` when no shape applies. -/
def extract_number_value (node : PyVal) : Except PErr (Option ℚ) :=
  match node with
  | .none => .ok Option.none
  | .num q => .ok (some q)
  | .bool b => .ok (some (if b then 1 else 0))
  | .dict d => do
    let r1 ← (if (d.lookup "valueNumber").isSome then do
        let v ← pyIndex (.dict d) "valueNumber"
        pure (numOf v)
      else pure Option.none)
    match r1 with
    | some q => pure (some q)
    | _ => do
      let r2 ← (if (d.lookup "valueCurrency").isSome then do
          let v ← pyIndex (.dict d) "valueCurrency"
          match v with
          | .dict cd => pure (numOf (dictGet cd "amount"))
          | _ => pure Option.none
        else pure Option.none)
      match r2 with
      | some q => pure (some q)
      | _ => pure (numOf (dictGet d "value"))
  | _ => .ok Option.none

/-- Pure form of `_extract_number_value`. -/
def extract_number_valueD : PyVal → Option ℚ
  | .num q => some q
  | .bool b => some (if b then 1 else 0)
  | .dict d =>
    (match d.lookup "valueNumber" with
     | some v => numOf v
     | _ => Option.none).orElse fun _ =>
    (match d.lookup "valueCurrency" with
     | some (.dict cd) => numOf (dictGet cd "amount")
     | _ => Option.none).orElse fun _ => numOf (dictGet d "value")
  | _ => Option.none

/-- `_pick_str_field`: first candidate key whose extracted text is
non-blank; `""` when none qualifies. -/
def pick_str_field (fields : PyVal) : List String → Except PErr String
  | [] => .ok ""
  | k :: rest => do
    let c ← pyContains fields k
    if !c then pick_str_field fields rest
    else do
      let v ← pyGet fields k
      let text ← extract_text_value v
      if pyStrip text != "" then pure text else pick_str_field fields rest

/-- Pure form of `_pick_str_field` on an actual dict. -/
def pick_str_fieldD (d : List (String × PyVal)) : List String → String
  | [] => ""
  | k :: rest =>
    if (d.lookup k).isSome then
      let text := extract_text_valueD (dictGet d k)
      if pyStrip text != "" then text else pick_str_fieldD d rest
    else pick_str_fieldD d rest

/-- `_pick_num_field`: first candidate key whose extracted number is not
`None`; `None` when none qualifies. -/
def pick_num_field (fields : PyVal) : List String → Except PErr (Option ℚ)
  | [] => .ok Option.none
  | k :: rest => do
    let c ← pyContains fields k
    if !c then pick_num_field fields rest
    else do
      let v ← pyGet fields k
      let n ← extract_number_value v
      match n with
      | some q => pure (some q)
      | _ => pick_num_field fields rest

/-- Pure form of `_pick_num_field` on an actual dict. -/
def pick_num_fieldD (d : List (String × PyVal)) : List String → Option ℚ
  | [] => Option.none
  | k :: rest =>
    if (d.lookup k).isSome then
      match extract_number_valueD (dictGet d k) with
      | some q => some q
      | _ => pick_num_fieldD d rest
    else pick_num_fieldD d rest

/-- `_extract_value_array`: unwrap the line-item collection from its
observed wire shapes. -/
def extract_value_array (node : PyVal) : List PyVal :=
  match node with
  | .none => []
  | .list xs => xs
  | .dict d =>
    match d.lookup "valueArray" with
    | some (.list va) => va
    | _ =>
      match d.lookup "value" with
      | some (.list v) => v
      | some (.dict vd) =>
        match vd.lookup "valueArray" with
        | some (.list va2) => va2
        | _ => []
      | _ => []
  | _ => []

/-- `_extract_value_object`: unwrap one line-item element's detail dict. -/
def extract_value_object (elem : PyVal) : List (String × PyVal) :=
  match elem with
  | .dict d =>
    match d.lookup "valueObject" with
    | some (.dict vo) => vo
    | _ =>
      match d.lookup "value" with
      | some (.dict v) => v
      | _ => []
  | _ => []

/-! ### Currency normalization (`_to_yen_int`) -/

/-- Python's `round()` to an integer: nearest integer, ties to even
(banker's rounding).  Raw amounts are modelled as rationals; the
computation runs on the reduced numerator/denominator (`f` is `⌊q⌋` and
`r` the fractional remainder, compared against `den / 2`). -/
def roundHalfEven (q : ℚ) : ℤ :=
  let f := q.num.fdiv q.den
  let r := q.num - f * q.den
  if 2 * r < (q.den : ℤ) then f
  else if (q.den : ℤ) < 2 * r then f + 1
  else if f % 2 = 0 then f else f + 1

/-- `_to_yen_int`: `int(round(float(v)))` for its pipeline input domain
`float | None` (`None` → `None`; every caller passes the result of
`_pick_num_field` / `_extract_total_from_text`, so the non-numeric branch
of the source's `except` collapses to the `None` case here). -/
def to_yen_int (v : Option ℚ) : Option ℤ := v.map roundHalfEven

/-! ### Total fallback from free text (`_extract_total_from_text`)

The three locale-specific regular expressions are implemented as
leftmost-match scanners with the exact greedy semantics of the source
patterns. -/

/-- `[0-9,]` character class. -/
def isDigitComma (c : Char) : Bool := c.isDigit || c == ','

/-- `float(m.group(1).replace(",", ""))`: strip commas; an all-comma
capture makes `float` raise `ValueError`, which the source swallows
(moving on to the next pattern), modelled as `none`. -/
def capturedValue (ds : List Char) : Option ℚ :=
  let digs := ds.filter (fun c => c != ',')
  if digs.isEmpty then Option.none else some ((digitsToNat digs : ℚ))

/-- Tail of pattern `金額[:：]?\s*([0-9,]+)\s*円` after the literal `金額`. -/
def matchKingakuTail (cs : List Char) : Option (List Char) :=
  let cs1 := match cs with
    | c :: rest => if c == ':' || c == '：' then rest else c :: rest
    | [] => []
  let cs2 := cs1.dropWhile isPySpace
  let digs := cs2.takeWhile isDigitComma
  let rest := cs2.dropWhile isDigitComma
  if digs.isEmpty then Option.none
  else match rest.dropWhile isPySpace with
    | '円' :: _ => some digs
    | _ => Option.none

/-- Leftmost search for `金額[:：]?\s*([0-9,]+)\s*円`. -/
def searchKingaku : List Char → Option (List Char)
  | [] => Option.none
  | '金' :: '額' :: rest => (matchKingakuTail rest).orElse fun _ => searchKingaku ('額' :: rest)
  | _ :: rest => searchKingaku rest

/-- Tail of pattern `合計[:：]?\s*¥?\s*([0-9,]+)` after the literal `合計`. -/
def matchGoukeiTail (cs : List Char) : Option (List Char) :=
  let cs1 := match cs with
    | c :: rest => if c == ':' || c == '：' then rest else c :: rest
    | [] => []
  let cs2 := cs1.dropWhile isPySpace
  let cs3 := match cs2 with
    | '¥' :: rest => rest
    | other => other
  let cs4 := cs3.dropWhile isPySpace
  let digs := cs4.takeWhile isDigitComma
  if digs.isEmpty then Option.none else some digs

/-- Leftmost search for `合計[:：]?\s*¥?\s*([0-9,]+)`. -/
def searchGoukei : List Char → Option (List Char)
  | [] => Option.none
  | '合' :: '計' :: rest => (matchGoukeiTail rest).orElse fun _ => searchGoukei ('計' :: rest)
  | _ :: rest => searchGoukei rest

/-- Leftmost search for `¥\s*([0-9,]+)`. -/
def searchYenSign : List Char → Option (List Char)
  | [] => Option.none
  | '¥' :: rest =>
    let digs := (rest.dropWhile isPySpace).takeWhile isDigitComma
    if digs.isEmpty then searchYenSign rest else some digs
  | _ :: rest => searchYenSign rest

/-- `_extract_total_from_text`: ordered pattern list, first pattern whose
match yields a parsable number wins. -/
def extract_total_from_text (text : String) : Option ℚ :=
  if text = "" then Option.none
  else ((searchKingaku text.data).bind capturedValue).orElse fun _ =>
       ((searchGoukei text.data).bind capturedValue).orElse fun _ =>
       (searchYenSign text.data).bind capturedValue

/-! ### Date and time normalization (`_normalize_date_iso`, `_normalize_time_norm`) -/

/-- Gregorian leap year (the `datetime.date` validation rule). -/
def isLeapYear (y : Nat) : Bool := (y % 4 == 0 && y % 100 != 0) || y % 400 == 0

/-- Days in a month, per `datetime.date` validation. -/
def daysInMonth (y m : Nat) : Nat :=
  if m == 2 then (if isLeapYear y then 29 else 28)
  else if m == 4 || m == 6 || m == 9 || m == 11 then 30 else 31

/-- Whether `date(y, m, d)` constructs without raising `ValueError`. -/
def validYmd (y m d : Nat) : Bool :=
  decide (1 ≤ y ∧ y ≤ 9999 ∧ 1 ≤ m ∧ m ≤ 12 ∧ 1 ≤ d ∧ d ≤ daysInMonth y m)

/-- `datetime.fromisoformat(s).date()`, modelled for the canonical
`YYYY-MM-DD` form (the only ISO shape the OCR dates relevant to the
claims take; other accepted ISO-8601 spellings are not modelled). -/
def fromIsoDate (s : String) : Option (Nat × Nat × Nat) :=
  match s.data with
  | [y1, y2, y3, y4, '-', m1, m2, '-', d1, d2] =>
    if [y1, y2, y3, y4, m1, m2, d1, d2].all Char.isDigit then
      let y := digitsToNat [y1, y2, y3, y4]
      let m := digitsToNat [m1, m2]
      let d := digitsToNat [d1, d2]
      if validYmd y m d then some (y, m, d) else Option.none
    else Option.none
  | _ => Option.none

/-- Anchored match of `(\d{4})\D+(\d{1,2})\D+(\d{1,2})` at the start of
`cs` (greedy groups; a digit run longer than 2 in the middle group can
never be followed by `\D+`, so it fails the position). -/
def matchDateAt (cs : List Char) : Option (Nat × Nat × Nat) :=
  match cs with
  | a :: b :: c :: d :: rest =>
    if a.isDigit && b.isDigit && c.isDigit && d.isDigit then
      let nd1 := rest.takeWhile (fun ch => !ch.isDigit)
      let r1 := rest.dropWhile (fun ch => !ch.isDigit)
      if nd1.isEmpty then Option.none else
      let mm := r1.takeWhile Char.isDigit
      let r2 := r1.dropWhile Char.isDigit
      if mm.isEmpty || 2 < mm.length then Option.none else
      let nd2 := r2.takeWhile (fun ch => !ch.isDigit)
      let r3 := r2.dropWhile (fun ch => !ch.isDigit)
      if nd2.isEmpty then Option.none else
      let dd := r3.takeWhile Char.isDigit
      if dd.isEmpty then Option.none
      else some (digitsToNat [a, b, c, d], digitsToNat mm, digitsToNat (dd.take 2))
    else Option.none
  | _ => Option.none

/-- `re.search` for the date pattern: leftmost matching position. -/
def searchDate : List Char → Option (Nat × Nat × Nat)
  | [] => Option.none
  | c :: rest => (matchDateAt (c :: rest)).orElse fun _ => searchDate rest

/-- `%Y-%m-%d` of a `datetime.date` (glibc `%Y`: no zero padding). -/
def formatYmdDashed (y m d : Nat) : String :=
  ⟨natDigits y ++ '-' :: (padDigits 2 m ++ '-' :: padDigits 2 d)⟩

/-- `_normalize_date_iso`. -/
def normalize_date_iso (text : String) : String :=
  let s := pyStrip text
  if s = "" then ""
  else match fromIsoDate s with
    | some (y, m, d) => formatYmdDashed y m d
    | Option.none =>
      match searchDate s.data with
      | some (y, m, d) => if validYmd y m d then formatYmdDashed y m d else ""
      | Option.none => ""

/-- Whether `datetime(2000, 1, 1, h, m, s)` constructs without raising. -/
def validHms (h m s : Nat) : Bool := h ≤ 23 && m ≤ 59 && s ≤ 59

/-- `%H:%M:%S`. -/
def formatHms (h m s : Nat) : String :=
  ⟨padDigits 2 h ++ ':' :: (padDigits 2 m ++ ':' :: padDigits 2 s)⟩

/-- Anchored match of `(\d{1,2})\D+(\d{1,2})(?:\D+(\d{1,2}))?` at the
start of `cs`; `none` in the third slot models an unmatched optional
group.  A leading digit run longer than 2 fails the position (the
following `\D+` cannot match a digit); a middle run longer than 2
contributes its first two digits with the optional group empty. -/
def matchTimeAt (cs : List Char) : Option (Nat × Nat × Option Nat) :=
  let run1 := cs.takeWhile Char.isDigit
  if run1.isEmpty || 2 < run1.length then Option.none else
  let r1 := cs.dropWhile Char.isDigit
  if (r1.takeWhile (fun c => !c.isDigit)).isEmpty then Option.none else
  let r2 := r1.dropWhile (fun c => !c.isDigit)
  let run2 := r2.takeWhile Char.isDigit
  if run2.isEmpty then Option.none else
  let hh := digitsToNat run1
  let mm := digitsToNat (run2.take 2)
  if 2 < run2.length then some (hh, mm, Option.none)
  else
    let r3 := r2.dropWhile Char.isDigit
    let nd2 := r3.takeWhile (fun c => !c.isDigit)
    let r4 := r3.dropWhile (fun c => !c.isDigit)
    let run3 := r4.takeWhile Char.isDigit
    if nd2.isEmpty || run3.isEmpty then some (hh, mm, Option.none)
    else some (hh, mm, some (digitsToNat (run3.take 2)))

/-- `re.search` for the time pattern: leftmost matching position. -/
def searchTime : List Char → Option (Nat × Nat × Option Nat)
  | [] => Option.none
  | c :: rest => (matchTimeAt (c :: rest)).orElse fun _ => searchTime rest

/-- `_normalize_time_norm`. -/
def normalize_time_norm (text : String) : String :=
  let s := pyStrip text
  if s = "" then ""
  else
    let viaRegex : Option String :=
      match searchTime s.data with
      | some (h, m, so) =>
        let sec := so.getD 0
        if validHms h m sec then some (formatHms h m sec) else Option.none
      | Option.none => Option.none
    match viaRegex with
    | some r => r
    | Option.none =>
      let digits := s.data.filter Char.isDigit
      if digits.length == 4 || digits.length == 6 then
        let hh := digitsToNat (digits.take 2)
        let mm := digitsToNat ((digits.drop 2).take 2)
        let ss := if digits.length == 6 then digitsToNat ((digits.drop 4).take 2) else 0
        if validHms hh mm ss then formatHms hh mm ss else ""
      else ""

/-! ### Data model (`type_def.py`) -/

/-- `ReceiptTag`: the closed 14-value category enumeration. -/
inductive ReceiptTag where
  | FOOD | EAT_OUT | DAILY_NECESSITIES | MEDICAL | TRANSPORTATION | ENTERTAINMENT
  | CLOTHING | HOUSING | UTILITIES | COMMUNICATION | EDUCATION | WORK | OTHER | UNKNOWN
deriving DecidableEq

/-- The `.value` string of each `ReceiptTag` member. -/
def tagValue : ReceiptTag → String
  | .FOOD => "食費"
  | .EAT_OUT => "外食"
  | .DAILY_NECESSITIES => "日用品"
  | .MEDICAL => "医療"
  | .TRANSPORTATION => "交通"
  | .ENTERTAINMENT => "娯楽"
  | .CLOTHING => "衣類"
  | .HOUSING => "住居"
  | .UTILITIES => "公共料金"
  | .COMMUNICATION => "通信"
  | .EDUCATION => "教育"
  | .WORK => "仕事"
  | .OTHER => "その他"
  | .UNKNOWN => "不明"

/-- The 14 persisted category strings. -/
def tagValues : List String :=
  ["食費", "外食", "日用品", "医療", "交通", "娯楽", "衣類",
   "住居", "公共料金", "通信", "教育", "仕事", "その他", "不明"]

/-- `ReceiptTag(tag)`: enum lookup by value, `ValueError` → `none`. -/
def receiptTagOfValue (s : String) : Option ReceiptTag :=
  if s = "食費" then some .FOOD
  else if s = "外食" then some .EAT_OUT
  else if s = "日用品" then some .DAILY_NECESSITIES
  else if s = "医療" then some .MEDICAL
  else if s = "交通" then some .TRANSPORTATION
  else if s = "娯楽" then some .ENTERTAINMENT
  else if s = "衣類" then some .CLOTHING
  else if s = "住居" then some .HOUSING
  else if s = "公共料金" then some .UTILITIES
  else if s = "通信" then some .COMMUNICATION
  else if s = "教育" then some .EDUCATION
  else if s = "仕事" then some .WORK
  else if s = "その他" then some .OTHER
  else if s = "不明" then some .UNKNOWN
  else Option.none

/-- `ReceiptItem` dataclass. -/
structure ReceiptItem where
  name : String := ""
  total_price : Option ℚ := Option.none
  quantity : Option ℚ := Option.none
  unit_price : Option ℚ := Option.none
  total_price_yen : Option ℤ := Option.none
  unit_price_yen : Option ℤ := Option.none
  tag : Option ReceiptTag := Option.none
  tag_reason : String := ""
deriving DecidableEq

/-- `ReceiptSummary` dataclass. -/
structure ReceiptSummary where
  merchant_name : String := ""
  merchant_address : String := ""
  merchant_phone : String := ""
  date : String := ""
  time : String := ""
  total : Option ℚ := Option.none
  tax : Option ℚ := Option.none
  date_iso : String := ""
  time_norm : String := ""
  total_yen : Option ℤ := Option.none
  tax_yen : Option ℤ := Option.none
  tags : List ReceiptTag := []
  used_fallback_date : Bool := false
  has_items : Bool := true
deriving DecidableEq

/-- `ReceiptResult` dataclass (the raw payload is the input dict). -/
structure ReceiptResult where
  source_file : String := ""
  summary : ReceiptSummary := {}
  items : List ReceiptItem := []
  raw : List (String × PyVal) := []

/-! ### Receipt normalizer (`receipt_parser.py`, `parse_receipt_dict` / `_parse_items`) -/

/-- Lines 30–32 of `parse_receipt_dict`:
`docs = raw.get("documents") or []`, `doc0 = docs[0] if docs else {}`,
`fields = doc0.get("fields") or {}`. -/
def getFields (raw : List (String × PyVal)) : Except PErr PyVal := do
  let docsv := dictGet raw "documents"
  let docs := if pyTruthy docsv then docsv else .list []
  let doc0 ← if pyTruthy docs then pySubscriptZero docs else pure (PyVal.dict [])
  let fv ← pyGet doc0 "fields"
  pure (if pyTruthy fv then fv else .dict [])

/-- Lines 35–52 of `parse_receipt_dict`: summary scalar extraction with
the fixed synonym lists, the phone `lstrip(":").strip()` artifact fix,
and the free-text total fallback. -/
def extractSummaryFields (raw : List (String × PyVal)) (fields : PyVal) :
    Except PErr ReceiptSummary := do
  let merchant_name ← pick_str_field fields ["MerchantName", "VendorName", "StoreName"]
  let merchant_address ←
    pick_str_field fields ["MerchantAddress", "Address", "VendorAddress", "StoreAddress"]
  let merchant_phone0 ←
    pick_str_field fields ["MerchantPhoneNumber", "PhoneNumber", "Tel", "Telephone"]
  let date ← pick_str_field fields ["TransactionDate", "Date"]
  let time ← pick_str_field fields ["TransactionTime", "Time"]
  let total0 ← pick_num_field fields ["Total", "Amount", "TotalAmount"]
  let tax ← pick_num_field fields ["TotalTax", "Tax", "TaxAmount"]
  let merchant_phone := pyStrip (lstripColons merchant_phone0)
  let total ← (match total0 with
    | some t => pure (some t)
    | Option.none =>
      let c := dictGet raw "content"
      let text := if pyTruthy c then c else .str ""
      match text with
      | .str s => pure (extract_total_from_text s)
      | _ => throw PErr.typeErr)
  pure { merchant_name, merchant_address, merchant_phone, date, time, total, tax }

/-- Lines 55–58 of `parse_receipt_dict`: fill the normalized fields from
the raw ones. -/
def normalizeSummary (s : ReceiptSummary) : ReceiptSummary :=
  { s with
    date_iso := normalize_date_iso s.date
    time_norm := normalize_time_norm s.time
    total_yen := to_yen_int s.total
    tax_yen := to_yen_int s.tax }

/-- One iteration of the `_parse_items` element loop (the element's
detail dict is a real dict, so the pure pickers apply — justified by
`extract_never_raises` / `pick_on_dict_never_raises` below).  Returns
`none` exactly when the element is skipped. -/
def parseItemElem (elem : PyVal) : Option ReceiptItem :=
  let obj := extract_value_object elem
  if obj.isEmpty then Option.none
  else
    let name := pick_str_fieldD obj ["Description", "Name", "ProductName", "ItemName"]
    let total_price := pick_num_fieldD obj ["TotalPrice", "Amount", "Price", "LineTotal"]
    let quantity := pick_num_fieldD obj ["Quantity", "Qty"]
    let unit_price := pick_num_fieldD obj ["UnitPrice", "UnitCost", "Price"]
    let item : ReceiptItem :=
      { name, total_price, quantity, unit_price
        tag := some .UNKNOWN, tag_reason := ""
        total_price_yen := to_yen_int total_price
        unit_price_yen := to_yen_int unit_price }
    if pyStrip name == "" && total_price.isNone && unit_price.isNone then Option.none
    else some item

/-- The `for key in ("Items", "LineItems", "PurchasedItems")` search. -/
def findItemsNode (fields : PyVal) : List String → Except PErr (Option PyVal)
  | [] => .ok Option.none
  | k :: rest => do
    let c ← pyContains fields k
    if c then do
      let v ← pyGet fields k
      pure (some v)
    else findItemsNode fields rest

/-- `_parse_items`. -/
def parse_items (fields : PyVal) : Except PErr (List ReceiptItem) :=
  match findItemsNode fields ["Items", "LineItems", "PurchasedItems"] with
  | .error e => .error e
  | .ok nodeOpt =>
    match nodeOpt.getD .none with
    | .none => .ok []
    | node =>
      let va := extract_value_array node
      if va.isEmpty then .ok []
      else .ok (va.filterMap parseItemElem)

/-- Lines 83–93 of `parse_receipt_dict`: the synthesized pseudo-item. -/
def pseudoItem (s : ReceiptSummary) : ReceiptItem :=
  { name := if s.merchant_name = "" then "UNKNOWN" else s.merchant_name
    total_price := s.total
    quantity := some 1
    unit_price := s.total
    total_price_yen := s.total_yen
    unit_price_yen := s.total_yen
    tag := some .UNKNOWN
    tag_reason := "" }

/-- `parse_receipt_dict`: the receipt normalizer.  `.error .notAReceipt`
is the distinguished `ValueError("NOT A RECEIPT")`. -/
def parse_receipt_dict (raw : List (String × PyVal)) (source_file : String) :
    Except PErr ReceiptResult :=
  match getFields raw with
  | .error e => .error e
  | .ok fields =>
    match extractSummaryFields raw fields with
    | .error e => .error e
    | .ok summary0 =>
      let summary := normalizeSummary summary0
      match parse_items fields with
      | .error e => .error e
      | .ok items =>
        if summary.total_yen.isNone && items.isEmpty then .error .notAReceipt
        else
          let items2 :=
            if items.isEmpty && summary.total_yen.isSome then [pseudoItem summary]
            else items
          let summary2 := { summary with has_items := decide (0 < items2.length) }
          .ok { source_file, summary := summary2, items := items2, raw }

/-! ### Item tagger reconciler (`receipt_manager.py`, `_judge_receipt_tags_by_ai`)

The reconciler is modelled as a function of the parsed tagging response:
`parsed = none` stands for `json.loads` raising, and every other Python
exception path inside the `try` (non-dict response, `.get` on a non-dict
entry, an unhashable `name`/`tag` value reaching a dict lookup) is folded
into the same all-`UNKNOWN` fail-safe the source's `except` applies.  The
source mutates items through a last-write-wins name→item map; this is
rendered as an update of the last list entry bearing the name. -/

/-- `AI_TAG_TO_RECEIPT_TAG`. -/
def aiTagToReceiptTag : List (String × ReceiptTag) :=
  [("Food", .FOOD), ("Eating Out", .EAT_OUT), ("Daily Necessities", .DAILY_NECESSITIES),
   ("Medical", .MEDICAL), ("Transportation", .TRANSPORTATION),
   ("Entertainment", .ENTERTAINMENT), ("Clothing", .CLOTHING), ("Housing", .HOUSING),
   ("Utilities", .UTILITIES), ("Communication", .COMMUNICATION),
   ("Education", .EDUCATION), ("Work", .WORK), ("Other", .OTHER), ("Unknown", .UNKNOWN)]

/-- The fail-safe branch: every item's category becomes `UNKNOWN`, its
reason empty. -/
def setAllUnknown (items : List ReceiptItem) : List ReceiptItem :=
  items.map fun i => { i with tag := some .UNKNOWN, tag_reason := "" }

/-- Unhashable Python values (would raise `TypeError` as dict keys). -/
def isUnhashable : PyVal → Bool
  | .list _ => true
  | .dict _ => true
  | _ => false

/-- `parsed.get("items")` with the `isinstance(ai_items, list)` check;
`none` covers the parse failure, a non-dict response, a missing key and a
non-list value — all of which reach the fail-safe. -/
def aiItemsOf : Option PyVal → Option (List PyVal)
  | some (.dict d) =>
    match d.lookup "items" with
    | some (.list xs) => some xs
    | _ => Option.none
  | _ => Option.none

/-- `AI_TAG_TO_RECEIPT_TAG.get(tag_raw)` followed by the `None` →
`UNKNOWN` default (a hashable non-string key never matches). -/
def tagOfAi : PyVal → ReceiptTag
  | .str s => (aiTagToReceiptTag.lookup s).getD .UNKNOWN
  | _ => .UNKNOWN

/-- `item.tag_reason = reason or ""` (every observed reason is a string;
a falsy or non-string reason is modelled as `""`). -/
def reasonOfAi : PyVal → String
  | .str s => s
  | _ => ""

/-- Apply `f` to the last list entry named `nm` (the entry the
name→item map points at), leaving everything else unchanged. -/
def updateLastNamed (nm : String) (f : ReceiptItem → ReceiptItem) :
    List ReceiptItem → List ReceiptItem
  | [] => []
  | i :: rest =>
    if rest.any (fun j => j.name == nm) then i :: updateLastNamed nm f rest
    else if i.name == nm then f i :: rest
    else i :: updateLastNamed nm f rest

/-- Whether processing this AI entry raises inside the loop
(`.get` on a non-dict entry; unhashable `name`; unhashable `tag` reached
after a successful name match). -/
def aiEntryRaises (names : List String) (ai : PyVal) : Bool :=
  match ai with
  | .dict d =>
    let nameVal := (d.lookup "name").getD (.str "")
    let tagVal := (d.lookup "tag").getD (.str "")
    isUnhashable nameVal ||
      (match nameVal with
       | .str nm => names.contains nm && isUnhashable tagVal
       | _ => false)
  | _ => true

/-- One non-raising iteration of the tag-application loop. -/
def applyAiTag (acc : List ReceiptItem) (ai : PyVal) : List ReceiptItem :=
  match ai with
  | .dict d =>
    let nameVal := (d.lookup "name").getD (.str "")
    let tagVal := (d.lookup "tag").getD (.str "")
    let reasonVal := (d.lookup "reason").getD (.str "")
    match nameVal with
    | .str nm =>
      if acc.any (fun j => j.name == nm) then
        updateLastNamed nm
          (fun i => { i with tag := some (tagOfAi tagVal), tag_reason := reasonOfAi reasonVal })
          acc
      else acc
    | _ => acc
  | _ => acc

/-- `_judge_receipt_tags_by_ai`: reconcile the parsed tagging response
onto the items; any failure (parse, shape, count mismatch, mid-loop
exception) resolves to the all-`UNKNOWN` fail-safe. -/
def judge_receipt_tags_by_ai (items : List ReceiptItem) (parsed : Option PyVal) :
    List ReceiptItem :=
  match aiItemsOf parsed with
  | Option.none => setAllUnknown items
  | some ais =>
    if ais.length != items.length then setAllUnknown items
    else if ais.any (aiEntryRaises (items.map (·.name))) then setAllUnknown items
    else ais.foldl applyAiTag items

/-! ### Monthly comparison (`receipt_manager.py`, `_build_monthly_comparison_lines`) -/

/-- `RECEIPT_TAG_EN_MAP`. -/
def receiptTagEnMap : List (ReceiptTag × String) :=
  [(.FOOD, "food"), (.EAT_OUT, "eating out"), (.DAILY_NECESSITIES, "daily necessities"),
   (.MEDICAL, "medical"), (.TRANSPORTATION, "transportation"),
   (.ENTERTAINMENT, "entertainment"), (.CLOTHING, "clothing"), (.HOUSING, "housing"),
   (.UTILITIES, "utilities"), (.COMMUNICATION, "communication"),
   (.EDUCATION, "education"), (.WORK, "work"), (.OTHER, "other"), (.UNKNOWN, "unknown")]

/-- `_tag_to_en`. -/
def tag_to_en (tag : String) : String :=
  match receiptTagOfValue tag with
  | Option.none => "unknown"
  | some t => (receiptTagEnMap.lookup t).getD "unknown"

/-- `FORMAT_INCREASE`. -/
def FORMAT_INCREASE (tag : String) (diff : ℤ) : String :=
  tag ++ " was " ++ toString diff ++ " JPY higher than the previous month."

/-- `FORMAT_DECREASE`. -/
def FORMAT_DECREASE (tag : String) (diff : ℤ) : String :=
  tag ++ " was " ++ toString diff ++ " JPY lower than the previous month."

/-- `FORMAT_NEW`. -/
def FORMAT_NEW (tag : String) (amount : ℤ) : String :=
  tag ++ " did not exist in the previous month, but was " ++ toString amount ++
  " JPY this month."

/-- `FORMAT_DISAPPEARED`. -/
def FORMAT_DISAPPEARED (tag : String) : String :=
  tag ++ " existed in the previous month, but did not appear this month."

/-- `FORMAT_NO_CHANGE`. -/
def FORMAT_NO_CHANGE (tag : String) (amount : ℤ) : String :=
  tag ++ " was the same as the previous month at " ++ toString amount ++ " JPY."

/-- `dict.get(tag, 0)` on a totals map. -/
def lookupAmount (m : List (String × ℤ)) (k : String) : ℤ := (m.lookup k).getD 0

/-- Executable lexicographic `<` on character lists (code-point order,
Python's string comparison). -/
def strLtB : List Char → List Char → Bool
  | [], [] => false
  | [], _ :: _ => true
  | _ :: _, [] => false
  | a :: as, b :: bs => if a < b then true else if b < a then false else strLtB as bs

/-- Executable `≤` on strings (shown equivalent to `≤` in
`pyStrLeB_iff`). -/
def pyStrLeB (a b : String) : Bool := strLtB a.data b.data || a == b

/-- `sorted(set(current) | set(prev))`: the distinct keys of both maps in
sorted (code-point lexicographic) order. -/
def sortedUnionKeys (cur prev : List (String × ℤ)) : List String :=
  List.insertionSort (fun a b => pyStrLeB a b = true)
    ((cur.map Prod.fst ++ prev.map Prod.fst).dedup)

/-- `_build_monthly_comparison_lines`. -/
def build_monthly_comparison_lines (current_totals prev_totals : List (String × ℤ)) :
    List String :=
  (sortedUnionKeys current_totals prev_totals).foldl
    (fun lines tag =>
      let current := lookupAmount current_totals tag
      let prev := lookupAmount prev_totals tag
      if current = 0 ∧ prev = 0 then lines
      else
        let tag_en := tag_to_en tag
        if prev < current then
          if prev = 0 then lines ++ [FORMAT_NEW tag_en current]
          else lines ++ [FORMAT_INCREASE tag_en (current - prev)]
        else if current < prev then
          if current = 0 then lines ++ [FORMAT_DISAPPEARED tag_en]
          else lines ++ [FORMAT_DECREASE tag_en (prev - current)]
        else lines ++ [FORMAT_NO_CHANGE tag_en current])
    []

/-! ### Monthly aggregation (`receipt_manager.py`, `_aggregate_monthly_csv`) -/

/-- The two ledger cells one aggregation step reads (a `csv.DictReader`
row; `none` models a missing column). -/
structure CsvItemRow where
  item_tag : Option String
  total_price_yen : Option String

/-- `digit (["_"] digit)*`: Python's `int()` digit grammar. -/
def digitpartRest : List Char → Bool
  | [] => true
  | '_' :: c :: rest => c.isDigit && digitpartRest rest
  | ['_'] => false
  | c :: rest => c.isDigit && digitpartRest rest

/-- Entry point of the digit grammar: nonempty, starts with a digit. -/
def digitpart : List Char → Bool
  | [] => false
  | c :: rest => c.isDigit && digitpartRest rest

/-- `int(s)` for strings: surrounding whitespace stripped, optional sign,
underscore-grouped decimal digits; anything else raises `ValueError`
(→ `none`). -/
def pyIntOfString (s : String) : Option ℤ :=
  let cs := (pyStrip s).data
  match cs with
  | '+' :: rest =>
    if digitpart rest then some ((digitsToNat (rest.filter (· != '_')) : ℤ)) else Option.none
  | '-' :: rest =>
    if digitpart rest then some (-(digitsToNat (rest.filter (· != '_')) : ℤ)) else Option.none
  | _ =>
    if digitpart cs then some ((digitsToNat (cs.filter (· != '_')) : ℤ)) else Option.none

/-- `totals[tag] = totals.get(tag, 0) + price` on an insertion-ordered
dict. -/
def updateAdd (totals : List (String × ℤ)) (k : String) (v : ℤ) : List (String × ℤ) :=
  match totals with
  | [] => [(k, v)]
  | (k2, v2) :: rest => if k2 == k then (k2, v2 + v) :: rest else (k2, v2) :: updateAdd rest k v

/-- One row of the aggregation loop: skip when the tag or price cell is
missing or empty, or the price does not parse as an integer. -/
def aggRow (totals : List (String × ℤ)) (row : CsvItemRow) : List (String × ℤ) :=
  match row.item_tag, row.total_price_yen with
  | some tag, some price_raw =>
    if tag == "" || price_raw == "" then totals
    else match pyIntOfString price_raw with
      | some price => updateAdd totals tag price
      | Option.none => totals
  | _, _ => totals

/-- `_aggregate_monthly_csv`: `none` models `not csv_path.exists()`. -/
def aggregate_monthly_csv (file : Option (List CsvItemRow)) : List (String × ℤ) :=
  match file with
  | Option.none => []
  | some rows => rows.foldl aggRow []

/-! ### Identity and persistence (`receipt_store.py`) -/

/-- A calendar date as used by `build_base_name`. -/
structure Ymd where
  y : Nat
  m : Nat
  d : Nat
deriving DecidableEq

/-- `_parse_date` of `receipt_store.py`: ISO attempt, then the
`YYYY<sep>MM<sep>DD` digit-group search (with `date()` validation). -/
def parse_date_store (text : String) : Option Ymd :=
  let s := pyStrip text
  match fromIsoDate s with
  | some (y, m, d) => some ⟨y, m, d⟩
  | Option.none =>
    match searchDate s.data with
    | some (y, m, d) => if validYmd y m d then some ⟨y, m, d⟩ else Option.none
    | Option.none => Option.none

/-- The date-resolution chain of `build_base_name`: normalized ISO date,
then best-effort re-parse of the raw date; the impure tail of the chain
(source file mtime if the file exists, else the current date) is
modelled by the `sysDate` parameter. -/
def resolveBaseDate (s : ReceiptSummary) (sysDate : Ymd) : Ymd :=
  match (if pyStrip s.date_iso != "" then fromIsoDate (pyStrip s.date_iso) else Option.none) with
  | some (y, m, d) => ⟨y, m, d⟩
  | Option.none =>
    match (if pyStrip s.date != "" then parse_date_store s.date else Option.none) with
    | some dt => dt
    | Option.none => sysDate

/-- The `hhmmss` block of `build_base_name`: normalized time with colons
removed; else hand-assembled from the raw time's colon-separated parts
(`zfill(2)`, seconds defaulting to `"00"`); else `"000000"`. -/
def timePartOf (s : ReceiptSummary) : String :=
  let tn := pyStrip s.time_norm
  if tn != "" then removeColons tn
  else if pyStrip s.time != "" then
    match splitColonList s.time.data with
    | p0 :: p1 :: rest =>
      let hh := zfill2 p0
      let mm := zfill2 p1
      let ss := match rest with
        | p2 :: _ => zfill2 p2
        | [] => ['0', '0']
      ⟨hh ++ mm ++ ss⟩
    | _ => "000000"
  else "000000"

/-- `invalid_filename_chars.sub("_", shop)` for the caller's pattern
`[\\/:*?"<>|]+` (a character class with `+`): each maximal run of
invalid characters collapses to one underscore.  The class is abstracted
as a character predicate.  The Bool flag records whether the previous
character was part of an invalid run (so each maximal run emits exactly
one `_`). -/
def sanitizeRunsB (invalid : Char → Bool) : Bool → List Char → List Char
  | _, [] => []
  | inRun, c :: rest =>
    if invalid c then
      if inRun then sanitizeRunsB invalid true rest
      else '_' :: sanitizeRunsB invalid true rest
    else c :: sanitizeRunsB invalid false rest

def sanitizeRuns (invalid : Char → Bool) (cs : List Char) : List Char :=
  sanitizeRunsB invalid false cs

/-- The sanitized-merchant block of `build_base_name`:
`summary.merchant_name.strip() or "UNKNOWN"`, then the substitution. -/
def shopOf (s : ReceiptSummary) (invalid : Char → Bool) : String :=
  let shop := if pyStrip s.merchant_name = "" then "UNKNOWN" else pyStrip s.merchant_name
  ⟨sanitizeRuns invalid shop.data⟩

/-- `f"{d:%Y%m%d}"` (glibc `%Y`: unpadded year; `%m`, `%d`: zero-padded). -/
def formatYmdCompact (dt : Ymd) : String :=
  ⟨natDigits dt.y ++ (padDigits 2 dt.m ++ padDigits 2 dt.d)⟩

/-- `build_base_name`. -/
def build_base_name (r : ReceiptResult) (invalid : Char → Bool) (sysDate : Ymd) : String :=
  formatYmdCompact (resolveBaseDate r.summary sysDate) ++ "_" ++ timePartOf r.summary ++
    "_" ++ shopOf r.summary invalid

/-- One line of the 12-column monthly ledger
(`build_receipt_summary_csv_row`). -/
structure SummaryCsvRow where
  receipt_id : String
  date : String
  time : String
  merchant_name : String
  item_name : String
  item_tag : String
  item_tag_reason : String
  total_price_yen : Option ℤ
  unit_price_yen : Option ℤ
  quantity : Option ℚ
  source_file : String
  json_file : String

/-- `build_receipt_summary_csv_row`: one row per item;
`item.tag.value if ... and item.tag else ""`. -/
def build_receipt_summary_csv_row (result : ReceiptResult) (receipt_id : String)
    (saved_json_name : String) : List SummaryCsvRow :=
  result.items.map fun item =>
    { receipt_id
      date := result.summary.date_iso
      time := result.summary.time_norm
      merchant_name := result.summary.merchant_name
      item_name := item.name
      item_tag := match item.tag with | some t => tagValue t | Option.none => ""
      item_tag_reason := item.tag_reason
      total_price_yen := item.total_price_yen
      unit_price_yen := item.unit_price_yen
      quantity := item.quantity
      source_file := result.source_file
      json_file := saved_json_name }

/-- One `items` entry of the JSON snapshot written by `save_result_json`
(`"tag": item.tag.value if item.tag else None`). -/
def jsonItemEntry (item : ReceiptItem) : PyVal :=
  .dict [("name", .str item.name),
         ("total_price", match item.total_price_yen with
            | some n => .num (n : ℚ)
            | Option.none => .none),
         ("unit_price", match item.unit_price_yen with
            | some n => .num (n : ℚ)
            | Option.none => .none),
         ("quantity", match item.quantity with
            | some q => .num q
            | Option.none => .none),
         ("tag", match item.tag with
            | some t => .str (tagValue t)
            | Option.none => .none),
         ("tag_reason", .str item.tag_reason)]

/-! ## Proofs -/

/-! ### Extractor totality (claim C8) -/

theorem tryKeyStr_ok (d : List (String × PyVal)) (k : String) :
    tryKeyStr d k = .ok (lookupStr d k) := by
  unfold tryKeyStr lookupStr
  cases h : d.lookup k with
  | none => simp [h, Pure.pure, Except.pure]
  | some v =>
    cases v <;>
      simp [h, pyIndex, Bind.bind, Except.bind, Pure.pure, Except.pure]

theorem extract_text_value_ok (node : PyVal) :
    extract_text_value node = .ok (extract_text_valueD node) := by
  cases node with
  | dict d =>
    simp only [extract_text_value, extract_text_valueD, tryKeyStr_ok,
      Bind.bind, Except.bind]
    cases h1 : lookupStr d "valueString" with
    | some s => simp [h1, Option.orElse, Pure.pure, Except.pure]
    | none =>
      cases h2 : lookupStr d "content" with
      | some s => simp [h1, h2, Option.orElse, Pure.pure, Except.pure]
      | none =>
        cases h3 : lookupStr d "value" with
        | some s => simp [h1, h2, h3, Option.orElse, Pure.pure, Except.pure]
        | none =>
          cases h4 : lookupStr d "valueDate" with
          | some s => simp [h1, h2, h3, h4, Option.orElse, Pure.pure, Except.pure]
          | none =>
            cases h5 : lookupStr d "valueTime" with
            | some s => simp [h1, h2, h3, h4, h5, Option.orElse, Pure.pure, Except.pure]
            | none => simp [h1, h2, h3, h4, h5, Option.orElse, Pure.pure, Except.pure]
  | _ => rfl

theorem extract_number_value_ok (node : PyVal) :
    extract_number_value node = .ok (extract_number_valueD node) := by
  cases node with
  | dict d =>
    have hcur : ∀ r : Option ℚ,
        (match (motive := Option ℚ → Except PErr (Option ℚ)) r with
          | some q => pure (some q)
          | _ => pure (numOf (dictGet d "value"))) =
        .ok (r.orElse fun _ => numOf (dictGet d "value")) := by
      intro r
      cases r <;> simp [Option.orElse, Pure.pure, Except.pure]
    simp only [extract_number_value, extract_number_valueD, Bind.bind, Except.bind]
    cases h1 : d.lookup "valueNumber" with
    | some v =>
      cases hv : numOf v with
      | some q => simp [h1, hv, pyIndex, Option.orElse, Pure.pure, Except.pure]
      | none =>
        simp only [h1, Option.isSome_some, if_true, pyIndex, Pure.pure, Except.pure, hv]
        cases h2 : d.lookup "valueCurrency" with
        | some w =>
          cases w with
          | dict cd =>
            simp only [h2, Option.isSome_some, if_true, pyIndex, Pure.pure, Except.pure]
            cases hq : numOf (dictGet cd "amount") <;>
              simp [hq, Option.orElse, Pure.pure, Except.pure]
          | _ =>
            simp only [h2, Option.isSome_some, if_true, Pure.pure, Except.pure, hcur]
            simp [Option.orElse]
        | none =>
          simp only [h2, Option.isSome_none, Bool.false_eq_true, if_false, Pure.pure,
            Except.pure, hcur]
          simp [Option.orElse]
    | none =>
      simp only [h1, Option.isSome_none, Bool.false_eq_true, if_false, Pure.pure,
        Except.pure]
      cases h2 : d.lookup "valueCurrency" with
      | some w =>
        cases w with
        | dict cd =>
          simp only [h2, Option.isSome_some, if_true, pyIndex, Pure.pure, Except.pure]
          cases hq : numOf (dictGet cd "amount") <;>
            simp [hq, Option.orElse, Pure.pure, Except.pure]
        | _ =>
          simp only [h2, Option.isSome_some, if_true, pyIndex, Pure.pure, Except.pure, hcur]
          simp [Option.orElse]
      | none =>
        simp only [h2, Option.isSome_none, Bool.false_eq_true, if_false, Pure.pure,
          Except.pure, hcur]
        simp [Option.orElse]
  | _ => rfl

theorem pick_str_field_dict (d : List (String × PyVal)) (cands : List String) :
    pick_str_field (.dict d) cands = .ok (pick_str_fieldD d cands) := by
  induction cands with
  | nil => rfl
  | cons k rest ih =>
    simp only [pick_str_field, pick_str_fieldD, pyContains, Bind.bind, Except.bind]
    cases h : (d.lookup k).isSome with
    | false => simpa [h] using ih
    | true =>
      simp only [h, Bool.not_true, Bool.false_eq_true, if_false, pyGet,
        extract_text_value_ok]
      split <;> simp_all [Pure.pure, Except.pure]

theorem pick_num_field_dict (d : List (String × PyVal)) (cands : List String) :
    pick_num_field (.dict d) cands = .ok (pick_num_fieldD d cands) := by
  induction cands with
  | nil => rfl
  | cons k rest ih =>
    simp only [pick_num_field, pick_num_fieldD, pyContains, Bind.bind, Except.bind]
    cases h : (d.lookup k).isSome with
    | false => simpa [h] using ih
    | true =>
      simp only [h, Bool.not_true, Bool.false_eq_true, if_false, pyGet,
        extract_number_value_ok]
      cases hq : extract_number_valueD (dictGet d k) <;>
        simp_all [Pure.pure, Except.pure]

/-- C8: for every input node of arbitrary nested shape and every
candidate field-name list, the field extractors never raise: text
extraction always returns a string (with `""` meaning absent) and
numeric extraction always returns a number or `None`; on an actual
fields dict the candidate-list pickers likewise always return. -/
theorem field_extractors_never_raise :
    (∀ node, extract_text_value node = .ok (extract_text_valueD node)) ∧
    (∀ node, extract_number_value node = .ok (extract_number_valueD node)) ∧
    (∀ (fields : List (String × PyVal)) (cands : List String),
      pick_str_field (.dict fields) cands = .ok (pick_str_fieldD fields cands)) ∧
    (∀ (fields : List (String × PyVal)) (cands : List String),
      pick_num_field (.dict fields) cands = .ok (pick_num_fieldD fields cands)) :=
  ⟨extract_text_value_ok, extract_number_value_ok, pick_str_field_dict, pick_num_field_dict⟩

/-! ### Receipt validity and pseudo-item synthesis (claims C1, C2) -/

/-- C1: a raw extraction tree whose normalized total is absent and whose
parsed line-item list is empty is rejected with the distinguished
not-a-receipt outcome (never a successful `ReceiptResult`). -/
theorem parse_rejects_no_total_no_items :
    ∀ (raw : List (String × PyVal)) (source_file : String) (fields : PyVal)
      (s0 : ReceiptSummary),
      getFields raw = .ok fields →
      extractSummaryFields raw fields = .ok s0 →
      (normalizeSummary s0).total_yen = Option.none →
      parse_items fields = .ok [] →
      parse_receipt_dict raw source_file = .error .notAReceipt := by
  intro raw sf fields s0 hf hs ht hi
  simp [parse_receipt_dict, hf, hs, hi, ht]

/-- C1 witness: the empty extraction tree is rejected as not a receipt. -/
theorem parse_rejects_no_total_no_items_witness :
    parse_receipt_dict [] "f.jpg" = .error .notAReceipt :=
  parse_rejects_no_total_no_items [] "f.jpg" (.dict []) {} rfl rfl rfl rfl

/-- C2: with a normalized total but zero recoverable line items,
normalization succeeds with exactly one pseudo-item — name the merchant
name or `"UNKNOWN"`, normalized total and unit price both the normalized
total, category `UNKNOWN`, reason empty — so every accepted receipt has
at least one line item. -/
theorem parse_pseudo_item_spec :
    (∀ (s : ReceiptSummary),
      (pseudoItem s).name = (if s.merchant_name = "" then "UNKNOWN" else s.merchant_name) ∧
      (pseudoItem s).total_price_yen = s.total_yen ∧
      (pseudoItem s).unit_price_yen = s.total_yen ∧
      (pseudoItem s).tag = some .UNKNOWN ∧
      (pseudoItem s).tag_reason = "") ∧
    (∀ (raw : List (String × PyVal)) (source_file : String) (fields : PyVal)
       (s0 : ReceiptSummary) (n : ℤ),
       getFields raw = .ok fields →
       extractSummaryFields raw fields = .ok s0 →
       (normalizeSummary s0).total_yen = some n →
       parse_items fields = .ok [] →
       parse_receipt_dict raw source_file =
         .ok { source_file
               summary := { normalizeSummary s0 with has_items := true }
               items := [pseudoItem (normalizeSummary s0)]
               raw }) ∧
    (∀ (raw : List (String × PyVal)) (source_file : String) (r : ReceiptResult),
       parse_receipt_dict raw source_file = .ok r → r.items ≠ []) := by
  refine ⟨fun s => ⟨rfl, rfl, rfl, rfl, rfl⟩, ?_, ?_⟩
  · intro raw sf fields s0 n hf hs ht hi
    simp [parse_receipt_dict, hf, hs, hi, ht]
  · intro raw sf r hok
    unfold parse_receipt_dict at hok
    cases hf : getFields raw with
    | error e => simp [hf] at hok
    | ok fields =>
      simp only [hf] at hok
      cases hs : extractSummaryFields raw fields with
      | error e => simp [hs] at hok
      | ok s0 =>
        simp only [hs] at hok
        cases hi : parse_items fields with
        | error e => simp [hi] at hok
        | ok items =>
          simp only [hi] at hok
          by_cases hcond :
              ((normalizeSummary s0).total_yen.isNone && items.isEmpty) = true
          · rw [if_pos hcond] at hok
            exact absurd hok (by simp)
          · rw [if_neg hcond] at hok
            simp only [Except.ok.injEq] at hok
            subst hok
            simp only [Bool.and_eq_true, not_and, Bool.not_eq_true] at hcond
            by_cases hemp : items.isEmpty
            · have hsome : (normalizeSummary s0).total_yen.isSome = true := by
                cases hty : (normalizeSummary s0).total_yen with
                | none => rw [hty] at hcond; simp [hemp] at hcond
                | some v => simp
              simp [hemp, hsome]
            · simp only [Bool.not_eq_true] at hemp
              simp only [hemp, Bool.false_and, Bool.and_eq_true, if_neg]
              simp only [Bool.false_eq_true, if_false]
              intro hcontra
              rw [hcontra] at hemp
              simp at hemp

/-- The end-to-end example tree
`{documents: [{fields: {Total: {valueCurrency: {amount: 1200}}}}]}`. -/
def exRawPseudo : List (String × PyVal) :=
  [("documents", .list [.dict [("fields",
    .dict [("Total", .dict [("valueCurrency", .dict [("amount", .num 1200)])])])]])]

/-- C2 witness: the example tree with a 1200-yen total and no items
yields exactly the pseudo-item receipt. -/
theorem parse_pseudo_item_spec_witness :
    parse_receipt_dict exRawPseudo "r.jpg" =
      .ok { source_file := "r.jpg"
            summary := { normalizeSummary { total := some 1200 } with has_items := true }
            items := [pseudoItem (normalizeSummary { total := some 1200 })]
            raw := exRawPseudo } :=
  parse_pseudo_item_spec.2.1 exRawPseudo "r.jpg"
    (.dict [("Total", .dict [("valueCurrency", .dict [("amount", .num 1200)])])])
    { total := some 1200 } 1200 rfl rfl (by decide) rfl

/-! ### Currency rounding is nearest-integer (claim C9) -/

theorem roundHalfEven_nearest (q : ℚ) : |((roundHalfEven q : ℤ) : ℚ) - q| ≤ 1 / 2 := by
  have hdpos : (0 : ℤ) < (q.den : ℤ) := by exact_mod_cast q.den_pos
  have hfd : q.num.fdiv (q.den : ℤ) = q.num / (q.den : ℤ) :=
    Int.fdiv_eq_ediv _ (le_of_lt hdpos)
  have hrmod : q.num - q.num.fdiv (q.den : ℤ) * (q.den : ℤ) = q.num % (q.den : ℤ) := by
    rw [hfd, Int.emod_def]; ring
  have hr0 : 0 ≤ q.num - q.num.fdiv (q.den : ℤ) * (q.den : ℤ) := by
    rw [hrmod]; exact Int.emod_nonneg _ (ne_of_gt hdpos)
  have hrlt : q.num - q.num.fdiv (q.den : ℤ) * (q.den : ℤ) < (q.den : ℤ) := by
    rw [hrmod]; exact Int.emod_lt_of_pos _ hdpos
  have hdq0 : ((q.den : ℤ) : ℚ) ≠ 0 := by exact_mod_cast ne_of_gt hdpos
  have hdqpos : (0 : ℚ) < ((q.den : ℤ) : ℚ) := by exact_mod_cast hdpos
  have hqden : q * ((q.den : ℤ) : ℚ) = (q.num : ℚ) := by
    have hd0 : ((q.den : ℕ) : ℚ) ≠ 0 := by exact_mod_cast q.den_pos.ne'
    have h := (div_eq_iff hd0).mp (Rat.num_div_den q)
    push_cast
    linarith [h]
  have key : ∀ g : ℤ, ((g : ℤ) : ℚ) - q =
      ((g * (q.den : ℤ) - q.num : ℤ) : ℚ) / ((q.den : ℤ) : ℚ) := by
    intro g
    rw [eq_div_iff hdq0]
    push_cast
    push_cast at hqden
    linarith [hqden]
  have habs : ∀ g : ℤ, |g * (q.den : ℤ) - q.num| * 2 ≤ (q.den : ℤ) →
      |((g : ℤ) : ℚ) - q| ≤ 1 / 2 := by
    intro g hg
    rw [key, abs_div, abs_of_pos hdqpos, div_le_iff₀ hdqpos]
    have hQ2 : ((|g * (q.den : ℤ) - q.num| * 2 : ℤ) : ℚ) ≤ (((q.den : ℤ)) : ℚ) := by
      exact_mod_cast hg
    push_cast at hQ2 ⊢
    linarith
  simp only [roundHalfEven]
  split_ifs with h1 h2 h3
  · apply habs
    rw [abs_of_nonpos (by linarith)]
    linarith
  · apply habs
    rw [abs_of_nonneg (by nlinarith)]
    nlinarith
  · apply habs
    push_neg at h1 h2
    rw [abs_of_nonpos (by linarith)]
    linarith
  · apply habs
    push_neg at h1 h2
    rw [abs_of_nonneg (by nlinarith)]
    nlinarith

/-- Field relations of every item produced by the `_parse_items` element
loop: normalized prices derive from raw prices, category pre-set to
`UNKNOWN` with empty reason. -/
theorem parseItemElem_fields (elem : PyVal) (i : ReceiptItem)
    (h : parseItemElem elem = some i) :
    i.total_price_yen = to_yen_int i.total_price ∧
    i.unit_price_yen = to_yen_int i.unit_price ∧
    i.tag = some .UNKNOWN ∧ i.tag_reason = "" := by
  simp only [parseItemElem] at h
  split_ifs at h
  all_goals cases h
  all_goals exact ⟨rfl, rfl, rfl, rfl⟩

/-- Same relations for every item of a successful `_parse_items`. -/
theorem parse_items_mem (fields : PyVal) (items : List ReceiptItem)
    (hok : parse_items fields = .ok items) :
    ∀ i ∈ items,
      i.total_price_yen = to_yen_int i.total_price ∧
      i.unit_price_yen = to_yen_int i.unit_price ∧
      i.tag = some .UNKNOWN ∧ i.tag_reason = "" := by
  intro i hi
  unfold parse_items at hok
  cases hn : findItemsNode fields ["Items", "LineItems", "PurchasedItems"] with
  | error e => simp only [hn] at hok; cases hok
  | ok nodeOpt =>
    simp only [hn] at hok
    cases hnode : nodeOpt.getD PyVal.none
    case none =>
      simp only [hnode] at hok
      cases hok
      exact absurd hi (List.not_mem_nil i)
    all_goals simp only [hnode] at hok
    all_goals split_ifs at hok with hemp
    all_goals
      first
      | (cases hok; exact absurd hi (List.not_mem_nil i))
      | (cases hok
         obtain ⟨elem, hmem, helem⟩ := List.mem_filterMap.mp hi
         exact parseItemElem_fields elem i helem)

/-- Normalized-field relations of every successful `parse_receipt_dict`
result: the summary's and every item's normalized amounts derive from the
raw ones via `_to_yen_int`, and every item (real or pseudo) carries
category `UNKNOWN` with empty reason. -/
theorem parse_receipt_ok_fields (raw : List (String × PyVal)) (sf : String)
    (r : ReceiptResult) (hok : parse_receipt_dict raw sf = .ok r) :
    (r.summary.total_yen = to_yen_int r.summary.total ∧
     r.summary.tax_yen = to_yen_int r.summary.tax) ∧
    ∀ i ∈ r.items,
      i.total_price_yen = to_yen_int i.total_price ∧
      i.unit_price_yen = to_yen_int i.unit_price ∧
      i.tag = some .UNKNOWN ∧ i.tag_reason = "" := by
  unfold parse_receipt_dict at hok
  cases hf : getFields raw with
  | error e => simp [hf] at hok
  | ok fields =>
    simp only [hf] at hok
    cases hs : extractSummaryFields raw fields with
    | error e => simp [hs] at hok
    | ok s0 =>
      simp only [hs] at hok
      cases hi : parse_items fields with
      | error e => simp [hi] at hok
      | ok items =>
        simp only [hi] at hok
        split_ifs at hok with hcond hps
        · cases hok
          refine ⟨⟨rfl, rfl⟩, ?_⟩
          intro i him
          rw [List.mem_singleton] at him
          subst him
          exact ⟨rfl, rfl, rfl, rfl⟩
        · cases hok
          refine ⟨⟨rfl, rfl⟩, ?_⟩
          intro i him
          exact parse_items_mem fields items hi i him

/-- C9: currency normalization maps every numeric raw amount to a
nearest integer (ties to even) and an absent amount to an absent result,
never raising; consequently the normalized total and tax of an accepted
summary and the normalized prices of every item are either `None` or a
nearest integer of their raw value. -/
theorem to_yen_int_spec :
    to_yen_int Option.none = Option.none ∧
    (∀ q : ℚ, to_yen_int (some q) = some (roundHalfEven q) ∧
      |((roundHalfEven q : ℤ) : ℚ) - q| ≤ 1 / 2) ∧
    (∀ (raw : List (String × PyVal)) (sf : String) (r : ReceiptResult),
      parse_receipt_dict raw sf = .ok r →
      r.summary.total_yen = to_yen_int r.summary.total ∧
      r.summary.tax_yen = to_yen_int r.summary.tax ∧
      ∀ i ∈ r.items,
        i.total_price_yen = to_yen_int i.total_price ∧
        i.unit_price_yen = to_yen_int i.unit_price) := by
  refine ⟨rfl, fun q => ⟨rfl, roundHalfEven_nearest q⟩, ?_⟩
  intro raw sf r hok
  obtain ⟨⟨h1, h2⟩, h3⟩ := parse_receipt_ok_fields raw sf r hok
  exact ⟨h1, h2, fun i hi => ⟨(h3 i hi).1, (h3 i hi).2.1⟩⟩

/-- The concrete result of normalizing `exRawPseudo`. -/
def exPseudoResult : ReceiptResult :=
  { source_file := "r.jpg"
    summary := { normalizeSummary { total := some 1200 } with has_items := true }
    items := [pseudoItem (normalizeSummary { total := some 1200 })]
    raw := exRawPseudo }

/-- C9 witness: the normalized total of the example receipt derives from
its raw total via `_to_yen_int`. -/
theorem to_yen_int_spec_witness :
    exPseudoResult.summary.total_yen = to_yen_int exPseudoResult.summary.total :=
  (to_yen_int_spec.2.2 exRawPseudo "r.jpg" exPseudoResult (by rfl)).1

/-! ### Surviving-item invariant (claim C5) -/

/-- `_pick_str_field` returns `""` or a string that is non-blank after
stripping. -/
theorem pick_str_fieldD_blank (d : List (String × PyVal)) (cands : List String) :
    pick_str_fieldD d cands = "" ∨ pyStrip (pick_str_fieldD d cands) ≠ "" := by
  induction cands with
  | nil => exact Or.inl rfl
  | cons k rest ih =>
    simp only [pick_str_fieldD]
    split_ifs with h1 h2
    · right
      simpa using h2
    · exact ih
    · exact ih

/-- Every item of a successful `parse_receipt_dict` is either produced by
the `_parse_items` element loop or is the pseudo-item of the normalized
summary. -/
theorem parse_receipt_items_origin (raw : List (String × PyVal)) (sf : String)
    (r : ReceiptResult) (hok : parse_receipt_dict raw sf = .ok r) :
    ∀ i ∈ r.items,
      (∃ elem, parseItemElem elem = some i) ∨ ∃ s, i = pseudoItem (normalizeSummary s) := by
  intro i him
  unfold parse_receipt_dict at hok
  cases hf : getFields raw with
  | error e => simp [hf] at hok
  | ok fields =>
    simp only [hf] at hok
    cases hs : extractSummaryFields raw fields with
    | error e => simp [hs] at hok
    | ok s0 =>
      simp only [hs] at hok
      cases hi : parse_items fields with
      | error e => simp [hi] at hok
      | ok items =>
        simp only [hi] at hok
        split_ifs at hok with hcond hps
        · cases hok
          rw [List.mem_singleton] at him
          exact Or.inr ⟨s0, him⟩
        · cases hok
          simp only at him
          unfold parse_items at hi
          cases hn : findItemsNode fields ["Items", "LineItems", "PurchasedItems"] with
          | error e => simp only [hn] at hi; cases hi
          | ok nodeOpt =>
            simp only [hn] at hi
            cases hnode : nodeOpt.getD PyVal.none with
            | none =>
              simp only [hnode] at hi
              cases hi
              exact absurd him (List.not_mem_nil i)
            | bool b =>
              simp only [hnode] at hi
              split_ifs at hi <;> cases hi
              · exact absurd him (List.not_mem_nil i)
              · obtain ⟨elem, hmem, helem⟩ := List.mem_filterMap.mp him
                exact Or.inl ⟨elem, helem⟩
            | num q =>
              simp only [hnode] at hi
              split_ifs at hi <;> cases hi
              · exact absurd him (List.not_mem_nil i)
              · obtain ⟨elem, hmem, helem⟩ := List.mem_filterMap.mp him
                exact Or.inl ⟨elem, helem⟩
            | str st =>
              simp only [hnode] at hi
              split_ifs at hi <;> cases hi
              · exact absurd him (List.not_mem_nil i)
              · obtain ⟨elem, hmem, helem⟩ := List.mem_filterMap.mp him
                exact Or.inl ⟨elem, helem⟩
            | list xs =>
              simp only [hnode] at hi
              split_ifs at hi <;> cases hi
              · exact absurd him (List.not_mem_nil i)
              · obtain ⟨elem, hmem, helem⟩ := List.mem_filterMap.mp him
                exact Or.inl ⟨elem, helem⟩
            | dict dd =>
              simp only [hnode] at hi
              split_ifs at hi <;> cases hi
              · exact absurd him (List.not_mem_nil i)
              · obtain ⟨elem, hmem, helem⟩ := List.mem_filterMap.mp him
                exact Or.inl ⟨elem, helem⟩

/-- The pseudo-item's name is never empty. -/
theorem pseudoItem_name_ne (s : ReceiptSummary) : (pseudoItem s).name ≠ "" := by
  simp only [pseudoItem]
  split_ifs with h
  · decide
  · exact h

/-- An element kept by the `_parse_items` loop escapes the discard
condition. -/
theorem parseItemElem_survives (elem : PyVal) (i : ReceiptItem)
    (h : parseItemElem elem = some i) :
    ¬(i.name = "" ∧ i.total_price = Option.none ∧ i.unit_price = Option.none) := by
  simp only [parseItemElem] at h
  split_ifs at h with h1 h2
  cases h
  rintro ⟨hn, htp, hup⟩
  apply h2
  simp only at hn htp hup
  rw [hn, htp, hup]
  rfl

/-- C5: every item in the item list of a normalization result has a
non-empty name, a non-null raw total price, or a non-null raw unit
price; an extracted element is discarded if and only if its name is
empty and both of those prices are absent. -/
theorem surviving_item_invariant :
    (∀ (raw : List (String × PyVal)) (sf : String) (r : ReceiptResult),
      parse_receipt_dict raw sf = .ok r →
      ∀ i ∈ r.items,
        ¬(i.name = "" ∧ i.total_price = Option.none ∧ i.unit_price = Option.none)) ∧
    (∀ elem : PyVal,
      parseItemElem elem = Option.none ↔
        (pick_str_fieldD (extract_value_object elem)
            ["Description", "Name", "ProductName", "ItemName"] = "" ∧
         pick_num_fieldD (extract_value_object elem)
            ["TotalPrice", "Amount", "Price", "LineTotal"] = Option.none ∧
         pick_num_fieldD (extract_value_object elem)
            ["UnitPrice", "UnitCost", "Price"] = Option.none)) := by
  constructor
  · intro raw sf r hok i him
    rcases parse_receipt_items_origin raw sf r hok i him with ⟨elem, helem⟩ | ⟨s, hps⟩
    · exact parseItemElem_survives elem i helem
    · rintro ⟨hn, -, -⟩
      exact pseudoItem_name_ne _ (hps ▸ hn)
  · intro elem
    constructor
    · intro hnone
      simp only [parseItemElem] at hnone
      split_ifs at hnone with h1 h2
      · have hobj : extract_value_object elem = [] := by
          simpa [List.isEmpty_iff] using h1
        rw [hobj]
        exact ⟨rfl, rfl, rfl⟩
      · simp only [Bool.and_eq_true, beq_iff_eq, Option.isNone_iff_eq_none] at h2
        obtain ⟨⟨hstrip, ht⟩, hu⟩ := h2
        refine ⟨?_, ht, hu⟩
        rcases pick_str_fieldD_blank (extract_value_object elem)
            ["Description", "Name", "ProductName", "ItemName"] with h | h
        · exact h
        · exact absurd hstrip h
    · rintro ⟨hn, ht, hu⟩
      simp only [parseItemElem]
      split_ifs with h1 h2
      · rfl
      · rfl
      · exfalso
        apply h2
        rw [hn, ht, hu]
        rfl

/-- C5 witness: the surviving pseudo-item of the example receipt has a
non-empty name or a non-null price. -/
theorem surviving_item_invariant_witness :
    ¬((pseudoItem (normalizeSummary { total := some 1200 })).name = "" ∧
      (pseudoItem (normalizeSummary { total := some 1200 })).total_price = Option.none ∧
      (pseudoItem (normalizeSummary { total := some 1200 })).unit_price = Option.none) :=
  surviving_item_invariant.1 exRawPseudo "r.jpg" exPseudoResult (by rfl)
    (pseudoItem (normalizeSummary { total := some 1200 })) (List.mem_singleton.mpr rfl)

/-! ### Non-null categories end to end (claim C10) -/

/-- Members of `updateLastNamed` are original members or `f`-updates of
original members. -/
theorem mem_updateLastNamed (nm : String) (f : ReceiptItem → ReceiptItem) :
    ∀ (l : List ReceiptItem) (i : ReceiptItem), i ∈ updateLastNamed nm f l →
      i ∈ l ∨ ∃ j ∈ l, i = f j := by
  intro l
  induction l with
  | nil => intro i hi; cases hi
  | cons a rest ih =>
    intro i hi
    simp only [updateLastNamed] at hi
    split_ifs at hi with h1 h2
    · rcases List.mem_cons.mp hi with h | h
      · exact Or.inl (List.mem_cons.mpr (Or.inl h))
      · rcases ih i h with hmem | ⟨j, hj, hij⟩
        · exact Or.inl (List.mem_cons.mpr (Or.inr hmem))
        · exact Or.inr ⟨j, List.mem_cons.mpr (Or.inr hj), hij⟩
    · rcases List.mem_cons.mp hi with h | h
      · exact Or.inr ⟨a, List.mem_cons.mpr (Or.inl rfl), h⟩
      · exact Or.inl (List.mem_cons.mpr (Or.inr h))
    · rcases List.mem_cons.mp hi with h | h
      · exact Or.inl (List.mem_cons.mpr (Or.inl h))
      · rcases ih i h with hmem | ⟨j, hj, hij⟩
        · exact Or.inl (List.mem_cons.mpr (Or.inr hmem))
        · exact Or.inr ⟨j, List.mem_cons.mpr (Or.inr hj), hij⟩

/-- One reconciliation step preserves "no item has a null tag". -/
theorem applyAiTag_preserves (acc : List ReceiptItem) (ai : PyVal)
    (h : ∀ i ∈ acc, i.tag ≠ Option.none) :
    ∀ i ∈ applyAiTag acc ai, i.tag ≠ Option.none := by
  intro i hi
  unfold applyAiTag at hi
  cases ai with
  | dict d =>
    simp only at hi
    cases hname : (d.lookup "name").getD (.str "") with
    | str nm =>
      rw [hname] at hi
      simp only at hi
      split_ifs at hi with h1
      · rcases mem_updateLastNamed _ _ acc i hi with hmem | ⟨j, hj, hij⟩
        · exact h i hmem
        · subst hij
          simp
      · exact h i hi
    | _ =>
      rw [hname] at hi
      simp only at hi
      exact h i hi
  | _ => exact h i hi

/-- Items of the fail-safe branch all carry `UNKNOWN`. -/
theorem setAllUnknown_mem (items : List ReceiptItem) :
    ∀ i ∈ setAllUnknown items, i.tag = some .UNKNOWN ∧ i.tag_reason = "" := by
  intro i hi
  obtain ⟨j, _, hj⟩ := List.mem_map.mp hi
  subst hj
  exact ⟨rfl, rfl⟩

/-- Every persisted category string is one of the 14 values. -/
theorem tagValue_mem (t : ReceiptTag) : tagValue t ∈ tagValues := by
  cases t <;> simp [tagValue, tagValues]

/-- The reconciliation fold preserves "no item has a null tag". -/
theorem foldl_applyAiTag_preserves (ais : List PyVal) :
    ∀ acc : List ReceiptItem, (∀ i ∈ acc, i.tag ≠ Option.none) →
      ∀ i ∈ ais.foldl applyAiTag acc, i.tag ≠ Option.none := by
  induction ais with
  | nil => intro acc h i hi; exact h i hi
  | cons a rest ih =>
    intro acc h i hi
    exact ih (applyAiTag acc a) (applyAiTag_preserves acc a h) i hi

/-- C10: after normalization every item already carries the non-null
category `UNKNOWN` with empty reason; reconciliation preserves
non-nullness (including when an AI entry matches no item and is
skipped); and a null category is never persisted — the ledger row's
category cell is one of the 14 category strings and the JSON snapshot's
tag field is a non-null string. -/
theorem category_never_null :
    (∀ (raw : List (String × PyVal)) (sf : String) (r : ReceiptResult),
      parse_receipt_dict raw sf = .ok r →
      ∀ i ∈ r.items, i.tag = some .UNKNOWN ∧ i.tag_reason = "") ∧
    (∀ (items : List ReceiptItem) (parsed : Option PyVal),
      (∀ i ∈ items, i.tag ≠ Option.none) →
      ∀ i ∈ judge_receipt_tags_by_ai items parsed, i.tag ≠ Option.none) ∧
    (∀ (result : ReceiptResult) (receipt_id json_name : String),
      (∀ i ∈ result.items, i.tag ≠ Option.none) →
      ∀ row ∈ build_receipt_summary_csv_row result receipt_id json_name,
        row.item_tag ∈ tagValues) ∧
    (∀ (i : ReceiptItem) (t : ReceiptTag), i.tag = some t →
      pyGet (jsonItemEntry i) "tag" = .ok (.str (tagValue t)) ∧
      PyVal.str (tagValue t) ≠ PyVal.none) := by
  refine ⟨?_, ?_, ?_, ?_⟩
  · intro raw sf r hok i hi
    exact ⟨((parse_receipt_ok_fields raw sf r hok).2 i hi).2.2.1,
           ((parse_receipt_ok_fields raw sf r hok).2 i hi).2.2.2⟩
  · intro items parsed h i hi
    unfold judge_receipt_tags_by_ai at hi
    cases haio : aiItemsOf parsed with
    | none =>
      simp only [haio] at hi
      rw [(setAllUnknown_mem items i hi).1]
      simp
    | some ais =>
      simp only [haio] at hi
      split_ifs at hi with h1 h2
      · rw [(setAllUnknown_mem items i hi).1]; simp
      · rw [(setAllUnknown_mem items i hi).1]; simp
      · exact foldl_applyAiTag_preserves ais items h i hi
  · intro result receipt_id json_name h row hrow
    obtain ⟨item, hitem, hb⟩ := List.mem_map.mp hrow
    subst hb
    simp only
    cases ht : item.tag with
    | none => exact absurd ht (h item hitem)
    | some t => exact tagValue_mem t
  · intro i t ht
    constructor
    · simp [jsonItemEntry, pyGet, dictGet, ht, List.lookup]
    · intro hc
      cases hc

/-- C10 witness: a mismatching response leaves the single item with the
non-null `UNKNOWN` tag. -/
theorem category_never_null_witness :
    ({ name := "x", tag := some ReceiptTag.UNKNOWN, tag_reason := "" } : ReceiptItem).tag ≠
      Option.none :=
  category_never_null.2.1 [{ name := "x", tag := some ReceiptTag.FOOD }] Option.none
    (by decide) { name := "x", tag := some ReceiptTag.UNKNOWN, tag_reason := "" }
    (by decide)

/-! ### Tagger reconciliation fail-safe (claim C3) -/

/-- C3: a tag response that fails to parse as JSON, lacks an `items`
array, or whose `items` length differs from the input item count
resolves to the all-or-nothing fail-safe: every input item's category is
set to `UNKNOWN` and its reason to the empty string.  The reconciler is
a total function of the parse outcome — every internal exception path is
folded into the same fail-safe — so no exception passes its boundary. -/
theorem judge_failsafe :
    ∀ (items : List ReceiptItem) (parsed : Option PyVal),
      (parsed = Option.none ∨ aiItemsOf parsed = Option.none ∨
       ∃ ais, aiItemsOf parsed = some ais ∧ ais.length ≠ items.length) →
      judge_receipt_tags_by_ai items parsed = setAllUnknown items ∧
      ∀ i ∈ judge_receipt_tags_by_ai items parsed,
        i.tag = some .UNKNOWN ∧ i.tag_reason = "" := by
  intro items parsed h
  have heq : judge_receipt_tags_by_ai items parsed = setAllUnknown items := by
    unfold judge_receipt_tags_by_ai
    rcases h with h | h | ⟨ais, ha, hlen⟩
    · subst h; rfl
    · simp only [h]
    · simp only [ha]
      rw [if_pos (by simpa [bne_iff_ne] using hlen)]
  exact ⟨heq, fun i hi => setAllUnknown_mem items i (heq ▸ hi)⟩

/-- C3 witness: an empty `items` array against one input item triggers
the fail-safe. -/
theorem judge_failsafe_witness :
    judge_receipt_tags_by_ai [{ name := "a" }] (some (.dict [("items", .list [])])) =
      setAllUnknown [{ name := "a" }] :=
  (judge_failsafe [{ name := "a" }] (some (.dict [("items", .list [])]))
    (Or.inr (Or.inr ⟨[], rfl, by decide⟩))).1

/-! ### Monthly aggregation (claim C6) -/

/-- The contribution of one ledger row, `none` when the row is skipped
(missing or empty category or total cell, or unparsable total). -/
def rowParsed (row : CsvItemRow) : Option (String × ℤ) :=
  match row.item_tag, row.total_price_yen with
  | some tag, some price_raw =>
    if tag == "" || price_raw == "" then Option.none
    else (pyIntOfString price_raw).map (fun p => (tag, p))
  | _, _ => Option.none

/-- `aggRow` is exactly "apply the parsed contribution, if any". -/
theorem aggRow_eq (acc : List (String × ℤ)) (row : CsvItemRow) :
    aggRow acc row = match rowParsed row with
      | Option.none => acc
      | some p => updateAdd acc p.1 p.2 := by
  unfold aggRow rowParsed
  cases row.item_tag with
  | none => rfl
  | some tag =>
    cases row.total_price_yen with
    | none => rfl
    | some price_raw =>
      simp only
      split_ifs with h1
      · rfl
      · cases pyIntOfString price_raw <;> simp

theorem updateAdd_lookup (totals : List (String × ℤ)) (k : String) (v : ℤ) (tag : String) :
    lookupAmount (updateAdd totals k v) tag =
      if k = tag then lookupAmount totals tag + v else lookupAmount totals tag := by
  induction totals with
  | nil =>
    by_cases h : k = tag
    · subst h
      simp [updateAdd, lookupAmount, List.lookup]
    · have hb : (tag == k) = false := by
        simpa [beq_iff_eq] using fun hc => h hc.symm
      simp [updateAdd, lookupAmount, List.lookup, hb, h]
  | cons a rest ih =>
    obtain ⟨k2, v2⟩ := a
    by_cases h1 : k2 = k
    · subst h1
      by_cases ht : tag = k2
      · subst ht
        simp [updateAdd, lookupAmount, List.lookup]
      · have hb2 : (tag == k2) = false := by simpa [beq_iff_eq] using ht
        have h3 : ¬k2 = tag := fun hc => ht hc.symm
        simp [updateAdd, lookupAmount, List.lookup, hb2, h3]
    · have hb : (k2 == k) = false := by simpa [beq_iff_eq] using h1
      by_cases ht : tag = k2
      · subst ht
        have h3 : ¬k = tag := fun hc => h1 hc.symm
        simp [updateAdd, lookupAmount, List.lookup, hb, h3]
      · have hb2 : (tag == k2) = false := by simpa [beq_iff_eq] using ht
        simp only [updateAdd, hb, Bool.false_eq_true, if_false]
        simp only [lookupAmount, List.lookup, hb2] at ih ⊢
        exact ih

theorem foldl_aggRow_lookup (rows : List CsvItemRow) :
    ∀ (acc : List (String × ℤ)) (tag : String),
      lookupAmount (rows.foldl aggRow acc) tag =
        lookupAmount acc tag +
          (((rows.filterMap rowParsed).filter (fun p => p.1 = tag)).map Prod.snd).sum := by
  induction rows with
  | nil => intro acc tag; simp
  | cons row rest ih =>
    intro acc tag
    simp only [List.foldl_cons, List.filterMap_cons, aggRow_eq]
    cases hrp : rowParsed row with
    | none =>
      simp only [hrp]
      rw [ih]
    | some p =>
      obtain ⟨t, pv⟩ := p
      simp only [hrp, List.filter_cons]
      rw [ih, updateAdd_lookup]
      by_cases h1 : t = tag
      · subst h1
        simp
        omega
      · have h2 : ¬((t, pv).1 = tag) := h1
        simp only [if_neg h1]
        simp [h2]

/-- C6: aggregation of a period's ledger returns the per-category sum of
the stored integer total column; a missing ledger file yields the empty
totals map, and each row with a missing, empty, or unparsable category
or total cell is skipped individually without affecting the rest. -/
theorem aggregate_monthly_spec :
    aggregate_monthly_csv Option.none = [] ∧
    (∀ (rows : List CsvItemRow) (tag : String),
      lookupAmount (aggregate_monthly_csv (some rows)) tag =
        (((rows.filterMap rowParsed).filter (fun p => p.1 = tag)).map Prod.snd).sum) ∧
    (∀ (pre post : List CsvItemRow) (bad : CsvItemRow) (tag : String),
      rowParsed bad = Option.none →
      lookupAmount (aggregate_monthly_csv (some (pre ++ bad :: post))) tag =
        lookupAmount (aggregate_monthly_csv (some (pre ++ post))) tag) := by
  refine ⟨rfl, ?_, ?_⟩
  · intro rows tag
    have := foldl_aggRow_lookup rows [] tag
    simpa [aggregate_monthly_csv, lookupAmount, List.lookup] using this
  · intro pre post bad tag hbad
    have h1 := foldl_aggRow_lookup (pre ++ bad :: post) [] tag
    have h2 := foldl_aggRow_lookup (pre ++ post) [] tag
    simp only [aggregate_monthly_csv]
    rw [h1, h2]
    simp [List.filterMap_append, hbad]

/-- C6 witness: malformed rows aggregate to the sum of the well-formed
ones, and removing a skipped row leaves the totals unchanged. -/
theorem aggregate_monthly_spec_witness :
    lookupAmount
      (aggregate_monthly_csv (some
        [{ item_tag := some "食費", total_price_yen := some "120" },
         { item_tag := some "食費", total_price_yen := some "abc" },
         { item_tag := some "食費", total_price_yen := some "30" }])) "食費" = 150 ∧
    lookupAmount
      (aggregate_monthly_csv (some
        ([{ item_tag := some "食費", total_price_yen := some "120" }] ++
          { item_tag := Option.none, total_price_yen := some "5" } :: []))) "食費" =
      lookupAmount
        (aggregate_monthly_csv (some
          ([{ item_tag := some "食費", total_price_yen := some "120" }] ++ []))) "食費" := by
  constructor
  · have h := aggregate_monthly_spec.2.1
      [{ item_tag := some "食費", total_price_yen := some "120" },
       { item_tag := some "食費", total_price_yen := some "abc" },
       { item_tag := some "食費", total_price_yen := some "30" }] "食費"
    rw [h]
    decide
  · exact aggregate_monthly_spec.2.2
      [{ item_tag := some "食費", total_price_yen := some "120" }] []
      { item_tag := Option.none, total_price_yen := some "5" } "食費" rfl

/-! ### Monthly comparison classification (claim C4) -/

theorem strLtB_lex : ∀ as bs : List Char, strLtB as bs = true ↔ List.Lex (· < ·) as bs := by
  intro as
  induction as with
  | nil =>
    intro bs
    cases bs with
    | nil =>
      simp only [strLtB, Bool.false_eq_true, false_iff]
      exact List.Lex.not_nil_right _ _
    | cons b bs =>
      simp only [strLtB, true_iff]
      exact List.Lex.nil
  | cons a as ih =>
    intro bs
    cases bs with
    | nil =>
      simp only [strLtB, Bool.false_eq_true, false_iff]
      exact List.Lex.not_nil_right _ _
    | cons b bs =>
      simp only [strLtB]
      split_ifs with h1 h2
      · simp only [true_iff]
        exact List.Lex.rel h1
      · simp only [Bool.false_eq_true, false_iff]
        intro hlex
        cases hlex with
        | rel h => exact h1 h
        | cons h => exact lt_irrefl _ h2
      · have heq : a = b := by
          rcases lt_trichotomy a b with h | h | h
          · exact absurd h h1
          · exact h
          · exact absurd h h2
        subst heq
        rw [ih bs]
        exact (List.Lex.cons_iff).symm

theorem pyStrLeB_iff (a b : String) : pyStrLeB a b = true ↔ a ≤ b := by
  unfold pyStrLeB
  rw [Bool.or_eq_true, beq_iff_eq, strLtB_lex]
  constructor
  · rintro (h | h)
    · exact le_of_lt (String.lt_iff_toList_lt.mpr h)
    · exact le_of_eq h
  · intro h
    rcases lt_trichotomy a b with hlt | heq | hgt
    · exact Or.inl (String.lt_iff_toList_lt.mp hlt)
    · exact Or.inr heq
    · exact absurd hgt (not_lt.mpr h)


theorem lookupAmount_nonneg (m : List (String × ℤ)) (h : ∀ x ∈ m, 0 ≤ x.2) (t : String) :
    0 ≤ lookupAmount m t := by
  induction m with
  | nil => simp [lookupAmount, List.lookup]
  | cons a rest ih =>
    obtain ⟨k, v⟩ := a
    simp only [lookupAmount, List.lookup]
    by_cases hb : (t == k) = true
    · simpa [hb] using h (k, v) (List.mem_cons.mpr (Or.inl rfl))
    · simp only [Bool.not_eq_true] at hb
      simp only [hb]
      exact ih fun x hx => h x (List.mem_cons.mpr (Or.inr hx))

theorem foldl_opt_filterMap {α β : Type} (g : α → Option β) :
    ∀ (l : List α) (acc : List β),
      l.foldl (fun lines x => match g x with | some b => lines ++ [b] | _ => lines) acc =
        acc ++ l.filterMap g := by
  intro l
  induction l with
  | nil => intro acc; simp
  | cons x rest ih =>
    intro acc
    simp only [List.foldl_cons, List.filterMap_cons]
    cases hg : g x with
    | none => rw [ih]
    | some b => rw [ih]; simp

set_option maxHeartbeats 1000000 in
/-- The comparison fold, against the claim's five-case classifier (for
non-negative totals the two classifications agree pointwise). -/
theorem build_comparison_foldl_eq (curT prevT : List (String × ℤ))
    (hcur : ∀ x ∈ curT, 0 ≤ x.2) (hprev : ∀ x ∈ prevT, 0 ≤ x.2) :
    ∀ (ks : List String) (acc : List String),
      ks.foldl (fun lines tag =>
        let current := lookupAmount curT tag
        let prev := lookupAmount prevT tag
        if current = 0 ∧ prev = 0 then lines
        else
          let tag_en := tag_to_en tag
          if prev < current then
            if prev = 0 then lines ++ [FORMAT_NEW tag_en current]
            else lines ++ [FORMAT_INCREASE tag_en (current - prev)]
          else if current < prev then
            if current = 0 then lines ++ [FORMAT_DISAPPEARED tag_en]
            else lines ++ [FORMAT_DECREASE tag_en (prev - current)]
          else lines ++ [FORMAT_NO_CHANGE tag_en current]) acc =
      acc ++ ks.filterMap (fun tag =>
        let c := lookupAmount curT tag
        let p := lookupAmount prevT tag
        if c = 0 ∧ p = 0 then Option.none
        else if p = 0 ∧ 0 < c then some (FORMAT_NEW (tag_to_en tag) c)
        else if c = 0 ∧ 0 < p then some (FORMAT_DISAPPEARED (tag_to_en tag))
        else if 0 < p ∧ p < c then some (FORMAT_INCREASE (tag_to_en tag) (c - p))
        else if 0 < c ∧ c < p then some (FORMAT_DECREASE (tag_to_en tag) (p - c))
        else some (FORMAT_NO_CHANGE (tag_to_en tag) c)) := by
  intro ks
  induction ks with
  | nil => intro acc; simp
  | cons tag rest ih =>
    intro acc
    have hc := lookupAmount_nonneg curT hcur tag
    have hp := lookupAmount_nonneg prevT hprev tag
    simp only [List.foldl_cons, List.filterMap_cons]
    rw [ih]
    split_ifs <;> first | (exfalso; omega) | simp

/-- C4: the comparison visits exactly the categories in the union of the
two key sets, in sorted order; it skips a category iff both amounts are
zero, and emits exactly one line per remaining category, classified as:
previous = 0 < current → new; current = 0 < previous → disappeared;
0 < previous < current → increased by the difference; 0 < current <
previous → decreased by the difference; current = previous > 0 →
unchanged at that amount. -/
theorem monthly_comparison_spec :
    ∀ (cur prev : List (String × ℤ)),
      (∀ x ∈ cur, 0 ≤ x.2) → (∀ x ∈ prev, 0 ≤ x.2) →
      (sortedUnionKeys cur prev).Sorted (· ≤ ·) ∧
      (sortedUnionKeys cur prev).Nodup ∧
      (∀ t, t ∈ sortedUnionKeys cur prev ↔
        t ∈ cur.map Prod.fst ∨ t ∈ prev.map Prod.fst) ∧
      build_monthly_comparison_lines cur prev =
        (sortedUnionKeys cur prev).filterMap (fun tag =>
          let c := lookupAmount cur tag
          let p := lookupAmount prev tag
          if c = 0 ∧ p = 0 then Option.none
          else if p = 0 ∧ 0 < c then some (FORMAT_NEW (tag_to_en tag) c)
          else if c = 0 ∧ 0 < p then some (FORMAT_DISAPPEARED (tag_to_en tag))
          else if 0 < p ∧ p < c then some (FORMAT_INCREASE (tag_to_en tag) (c - p))
          else if 0 < c ∧ c < p then some (FORMAT_DECREASE (tag_to_en tag) (p - c))
          else some (FORMAT_NO_CHANGE (tag_to_en tag) c)) := by
  intro cur prev hcur hprev
  haveI htotal : IsTotal String (fun a b => pyStrLeB a b = true) := ⟨fun a b => by
    rcases le_total a b with h | h
    · exact Or.inl ((pyStrLeB_iff a b).mpr h)
    · exact Or.inr ((pyStrLeB_iff b a).mpr h)⟩
  haveI htrans : IsTrans String (fun a b => pyStrLeB a b = true) := ⟨fun a b c hab hbc =>
    (pyStrLeB_iff a c).mpr
      (le_trans ((pyStrLeB_iff a b).mp hab) ((pyStrLeB_iff b c).mp hbc))⟩
  refine ⟨(List.sorted_insertionSort _ _).imp fun h => (pyStrLeB_iff _ _).mp h,
    ((List.perm_insertionSort _ _).nodup_iff).mpr (List.nodup_dedup _), ?_, ?_⟩
  · intro t
    unfold sortedUnionKeys
    rw [List.Perm.mem_iff (List.perm_insertionSort _ _), List.mem_dedup, List.mem_append]
  · unfold build_monthly_comparison_lines
    simpa using build_comparison_foldl_eq cur prev hcur hprev (sortedUnionKeys cur prev) []

/-- C4 witness: a concrete pair of monthly totals exercising the
disappeared / unchanged / increased cases with a both-zero category
skipped. -/
theorem monthly_comparison_spec_witness :
    build_monthly_comparison_lines [("食費", 150), ("交通", 0), ("外食", 100)]
        [("食費", 100), ("医療", 30), ("外食", 100)] =
      [FORMAT_DISAPPEARED (tag_to_en "医療"), FORMAT_NO_CHANGE (tag_to_en "外食") 100,
       FORMAT_INCREASE (tag_to_en "食費") 50] := by
  have h := (monthly_comparison_spec [("食費", 150), ("交通", 0), ("外食", 100)]
    [("食費", 100), ("医療", 30), ("外食", 100)] (by decide) (by decide)).2.2.2
  rw [h]
  rfl

/-! ### Identifier format and monotonicity (claim C7) -/

/-- The claimed identifier shape: eight digits, `_`, six digits, `_`,
then the sanitized merchant. -/
def idFormatOK (id shop : String) : Bool :=
  let cs := id.data
  ((cs.take 8).length == 8) && ((cs.take 8).all Char.isDigit) &&
  ((cs.drop 8).take 1 == ['_']) &&
  (((cs.drop 9).take 6).length == 6) && (((cs.drop 9).take 6).all Char.isDigit) &&
  ((cs.drop 15).take 1 == ['_']) &&
  (cs.drop 16 == shop.data)

/-- A receipt whose OCR time reads `1234:5`: the time normalizer rejects
it (hour 34), and `build_base_name` hand-assembles an 8-character time
block from the raw parts. -/
def exRawBadTime : List (String × PyVal) :=
  [("documents", .list [.dict [("fields", .dict [
     ("MerchantName", .dict [("valueString", .str "shop")]),
     ("TransactionDate", .dict [("valueString", .str "2026-01-07")]),
     ("TransactionTime", .dict [("valueString", .str "1234:5")]),
     ("Total", .dict [("valueNumber", .num 100)])])]])]

/-- C7 counterexample: for the receipt above the identifier's time block
is `12340500` — eight characters, not the claimed `HHMMSS` six — so the
identifier does not have the claimed form. -/
theorem build_base_name_counterexample :
    (parse_receipt_dict exRawBadTime "r.jpg").map
        (fun r => build_base_name r (fun _ => false) ⟨2000, 1, 1⟩) =
      .ok "20260107_12340500_shop" ∧
    idFormatOK "20260107_12340500_shop" "shop" = false := by
  constructor
  · rfl
  · rfl

/-! #### Decimal-digit lemmas for the identifier blocks -/

theorem digitChar_isDigit {n : Nat} (h : n < 10) : (digitChar n).isDigit = true := by
  interval_cases n <;> decide

theorem digitChar_lt {m n : Nat} (hm : m < n) (hn : n < 10) : digitChar m < digitChar n := by
  have hm10 : m < 10 := lt_trans hm hn
  interval_cases m <;> interval_cases n <;> decide

theorem padDigits_length (k n : Nat) : (padDigits k n).length = k := by
  induction k generalizing n with
  | zero => rfl
  | succ k ih => simp [padDigits, ih]

theorem padDigits_digits (k n : Nat) : ∀ c ∈ padDigits k n, c.isDigit = true := by
  induction k generalizing n with
  | zero => intro c hc; simp [padDigits] at hc
  | succ k ih =>
    intro c hc
    rcases List.mem_cons.mp hc with rfl | hm
    · exact digitChar_isDigit (Nat.mod_lt _ (by omega))
    · exact ih n c hm

/-- The `k` low digits ignore everything above `10 ^ k`. -/
theorem padDigits_add_mul : ∀ (k a b : Nat), padDigits k (a * 10 ^ k + b) = padDigits k b := by
  intro k
  induction k with
  | zero => intro a b; rfl
  | succ k ih =>
    intro a b
    have hpos : 0 < 10 ^ k := pow_pos (by norm_num) k
    have hre : a * 10 ^ (k + 1) + b = b + 10 ^ k * (a * 10) := by ring
    show digitChar ((a * 10 ^ (k + 1) + b) / 10 ^ k % 10) :: padDigits k (a * 10 ^ (k + 1) + b)
      = digitChar (b / 10 ^ k % 10) :: padDigits k b
    rw [hre, Nat.add_mul_div_left b (a * 10) hpos, Nat.add_mul_mod_self_right]
    rw [show b + 10 ^ k * (a * 10) = (a * 10) * 10 ^ k + b from by ring, ih (a * 10) b]

theorem padDigits_append :
    ∀ (j k a b : Nat), b < 10 ^ k →
      padDigits j a ++ padDigits k b = padDigits (j + k) (a * 10 ^ k + b) := by
  intro j
  induction j with
  | zero =>
    intro k a b hb
    show padDigits k b = padDigits (0 + k) (a * 10 ^ k + b)
    rw [Nat.zero_add, padDigits_add_mul]
  | succ j ih =>
    intro k a b hb
    have hpos : 0 < 10 ^ k := pow_pos (by norm_num) k
    rw [show j + 1 + k = (j + k) + 1 from by omega]
    show digitChar (a / 10 ^ j % 10) :: (padDigits j a ++ padDigits k b)
      = digitChar ((a * 10 ^ k + b) / 10 ^ (j + k) % 10) :: padDigits (j + k) (a * 10 ^ k + b)
    have hdiv : (a * 10 ^ k + b) / 10 ^ (j + k) = a / 10 ^ j := by
      rw [pow_add, mul_comm (10 ^ j) (10 ^ k), ← Nat.div_div_eq_div_mul]
      rw [show a * 10 ^ k + b = b + 10 ^ k * a from by ring,
        Nat.add_mul_div_left b a hpos, Nat.div_eq_of_lt hb, Nat.zero_add]
    rw [hdiv, ih k a b hb]

theorem natDigits_year {y : Nat} (h1 : 1000 ≤ y) (h2 : y ≤ 9999) :
    natDigits y = padDigits 4 y := by
  rw [natDigits_unfold, if_neg (by omega : ¬ y < 10)]
  rw [natDigits_unfold, if_neg (by omega : ¬ y / 10 < 10)]
  rw [natDigits_unfold, if_neg (by omega : ¬ y / 10 / 10 < 10)]
  rw [natDigits_unfold, if_pos (by omega : y / 10 / 10 / 10 < 10)]
  have hp : padDigits 4 y = [digitChar (y / 1000 % 10), digitChar (y / 100 % 10),
      digitChar (y / 10 % 10), digitChar (y % 10)] := by
    norm_num [padDigits]
  rw [hp]
  have d0 : y / 10 / 10 / 10 = y / 1000 % 10 := by omega
  have d1 : y / 10 / 10 % 10 = y / 100 % 10 := by omega
  rw [d0, d1]
  rfl

/-- Decimal order on equally padded blocks is lexicographic order. -/
theorem padDigits_lt : ∀ (k a b : Nat), a < b → b < 10 ^ k →
    List.Lex (· < ·) (padDigits k a) (padDigits k b) := by
  intro k
  induction k with
  | zero =>
    intro a b hab hb
    simp only [pow_zero] at hb
    omega
  | succ k ih =>
    intro a b hab hb
    have hpos : 0 < 10 ^ k := pow_pos (by norm_num) k
    have hb10 : b / 10 ^ k < 10 := by
      rw [Nat.div_lt_iff_lt_mul hpos]
      calc b < 10 ^ (k + 1) := hb
        _ = 10 * 10 ^ k := by ring
    have hdivle : a / 10 ^ k ≤ b / 10 ^ k := Nat.div_le_div_right (le_of_lt hab)
    show List.Lex (· < ·) (digitChar (a / 10 ^ k % 10) :: padDigits k a)
      (digitChar (b / 10 ^ k % 10) :: padDigits k b)
    rcases lt_or_eq_of_le hdivle with hlt | heq
    · have ha10 : a / 10 ^ k < 10 := lt_of_lt_of_le hlt (le_of_lt hb10)
      rw [Nat.mod_eq_of_lt ha10, Nat.mod_eq_of_lt hb10]
      exact List.Lex.rel (digitChar_lt hlt hb10)
    · have ea : a = 10 ^ k * (b / 10 ^ k) + a % 10 ^ k := by
        rw [← heq]; exact (Nat.div_add_mod a (10 ^ k)).symm
      have eb : b = 10 ^ k * (b / 10 ^ k) + b % 10 ^ k := (Nat.div_add_mod b (10 ^ k)).symm
      have hmod : a % 10 ^ k < b % 10 ^ k := by omega
      have hta : padDigits k a = padDigits k (a % 10 ^ k) := by
        conv_lhs => rw [show a = (b / 10 ^ k) * 10 ^ k + a % 10 ^ k from by rw [mul_comm]; exact ea]
        exact padDigits_add_mul k (b / 10 ^ k) (a % 10 ^ k)
      have htb : padDigits k b = padDigits k (b % 10 ^ k) := by
        conv_lhs => rw [show b = (b / 10 ^ k) * 10 ^ k + b % 10 ^ k from by rw [mul_comm]; exact eb]
        exact padDigits_add_mul k (b / 10 ^ k) (b % 10 ^ k)
      rw [heq, hta, htb]
      exact List.Lex.cons (ih _ _ hmod (Nat.mod_lt b hpos))

/-- A lexicographic difference inside equal-length prefixes decides the
comparison of any extensions. -/
theorem lex_append_of_lex :
    ∀ {l1 l2 : List Char}, List.Lex (· < ·) l1 l2 → l1.length = l2.length →
      ∀ t1 t2 : List Char, List.Lex (· < ·) (l1 ++ t1) (l2 ++ t2) := by
  intro l1 l2 h
  induction h with
  | nil => intro hlen; simp at hlen
  | rel hab => intro hlen t1 t2; exact List.Lex.rel hab
  | cons h ih => intro hlen t1 t2; exact List.Lex.cons (ih (by simpa using hlen) t1 t2)

/-! #### Well-formedness conditions under which the claimed format holds -/

/-- The resolved date prints as `YYYYMMDD` (8 characters) exactly when the
year has four decimal digits and month and day are calendar-plausible. -/
def dateInRange (dt : Ymd) : Prop :=
  1000 ≤ dt.y ∧ dt.y ≤ 9999 ∧ 1 ≤ dt.m ∧ dt.m ≤ 12 ∧ 1 ≤ dt.d ∧ dt.d ≤ 31

/-- Calendar order on resolved dates. -/
def ymdLt (a b : Ymd) : Prop :=
  a.y < b.y ∨ (a.y = b.y ∧ (a.m < b.m ∨ (a.m = b.m ∧ a.d < b.d)))

/-- One colon-separated part of the raw OCR time that `zfill(2)` turns
into exactly two digits. -/
def timeDigitPart (cs : List Char) : Prop :=
  cs.length ≤ 2 ∧ ∀ c ∈ cs, c.isDigit = true

/-- `HH:MM:SS` with two-digit fields — the only non-blank shape
`_normalize_time_norm` ever stores. -/
def hmsShape (cs : List Char) : Bool :=
  match cs with
  | [a, b, c1, d, e, c2, f, g] =>
    a.isDigit && b.isDigit && (c1 == ':') && d.isDigit && e.isDigit && (c2 == ':') &&
      f.isDigit && g.isDigit
  | _ => false

/-- The time fields of a summary from which `build_base_name` assembles a
six-digit `HHMMSS` block: a normalized `HH:MM:SS`, or a blank normalized
time whose raw colon-separated parts each fit in two digits. -/
def timeFieldsWF (s : ReceiptSummary) : Prop :=
  hmsShape (pyStrip s.time_norm).data = true ∨
  (pyStrip s.time_norm = "" ∧
    (pyStrip s.time = "" ∨
      match splitColonList s.time.data with
      | p0 :: p1 :: rest =>
        timeDigitPart p0 ∧ timeDigitPart p1 ∧
          (match rest with | p2 :: _ => timeDigitPart p2 | [] => True)
      | _ => True))

theorem hmsShape_spec {cs : List Char} (h : hmsShape cs = true) :
    ∃ a b d e f g : Char, cs = [a, b, ':', d, e, ':', f, g] ∧
      a.isDigit = true ∧ b.isDigit = true ∧ d.isDigit = true ∧ e.isDigit = true ∧
      f.isDigit = true ∧ g.isDigit = true := by
  unfold hmsShape at h
  split at h
  · rename_i a b c1 d e c2 f g
    simp only [Bool.and_eq_true, beq_iff_eq] at h
    obtain ⟨⟨⟨⟨⟨⟨⟨ha, hb⟩, hc1⟩, hd⟩, he⟩, hc2⟩, hf⟩, hg⟩ := h
    subst hc1; subst hc2
    exact ⟨a, b, d, e, f, g, rfl, ha, hb, hd, he, hf, hg⟩
  · exact absurd h (by simp)

theorem isDigit_ne_colon {c : Char} (h : c.isDigit = true) : (c != ':') = true := by
  rcases eq_or_ne c ':' with rfl | hne
  · exact absurd h (by decide)
  · simp [bne_iff_ne, hne]

theorem zfill2_spec {cs : List Char} (h : timeDigitPart cs) :
    (zfill2 cs).length = 2 ∧ ∀ c ∈ zfill2 cs, c.isDigit = true := by
  obtain ⟨hlen, hdig⟩ := h
  unfold zfill2
  split_ifs with hge
  · exact ⟨by omega, hdig⟩
  · constructor
    · simp only [List.length_append, List.length_replicate]
      omega
    · intro c hc
      rcases List.mem_append.mp hc with hm | hm
      · rw [List.eq_of_mem_replicate hm]; decide
      · exact hdig c hm

/-- Under `timeFieldsWF` the `hhmmss` block is exactly six digits. -/
theorem timePartOf_sixDigits {s : ReceiptSummary} (h : timeFieldsWF s) :
    (timePartOf s).data.length = 6 ∧ ∀ c ∈ (timePartOf s).data, c.isDigit = true := by
  rcases h with hhms | ⟨hblank, hraw⟩
  · obtain ⟨a, b, d, e, f, g, hdata, ha, hb, hd, he, hf, hg⟩ := hmsShape_spec hhms
    have hne : (pyStrip s.time_norm != "") = true := by
      simp only [bne_iff_ne, ne_eq]
      intro hc
      rw [hc] at hdata
      simp at hdata
    unfold timePartOf
    rw [if_pos hne]
    unfold removeColons
    rw [hdata]
    have hfil : [a, b, ':', d, e, ':', f, g].filter (· != ':') = [a, b, d, e, f, g] := by
      simp [List.filter, isDigit_ne_colon ha, isDigit_ne_colon hb, isDigit_ne_colon hd,
        isDigit_ne_colon he, isDigit_ne_colon hf, isDigit_ne_colon hg]
    rw [hfil]
    refine ⟨rfl, ?_⟩
    intro c hc
    simp only [List.mem_cons, List.not_mem_nil, or_false] at hc
    rcases hc with rfl | rfl | rfl | rfl | rfl | rfl <;> assumption
  · unfold timePartOf
    rw [if_neg (by simp [hblank])]
    by_cases htb : pyStrip s.time = ""
    · rw [if_neg (by simp [htb])]
      exact ⟨rfl, by decide⟩
    · rw [if_pos (by simp [bne_iff_ne, htb])]
      have hsplit : (match splitColonList s.time.data with
          | p0 :: p1 :: rest => timeDigitPart p0 ∧ timeDigitPart p1 ∧
              (match rest with | p2 :: _ => timeDigitPart p2 | [] => True)
          | _ => True) := by
        rcases hraw with htb2 | hs
        · exact absurd htb2 htb
        · exact hs
      cases hsp : splitColonList s.time.data with
      | nil => exact ⟨rfl, by decide⟩
      | cons p0 tl =>
        cases tl with
        | nil =>
          constructor
          · rfl
          · show ∀ c ∈ ("000000" : String).data, c.isDigit = true
            decide
        | cons p1 rest =>
          cases rest with
          | nil =>
            simp only [hsp] at hsplit
            obtain ⟨hp0, hp1, _⟩ := hsplit
            obtain ⟨hl0, hd0⟩ := zfill2_spec hp0
            obtain ⟨hl1, hd1⟩ := zfill2_spec hp1
            constructor
            · show (zfill2 p0 ++ zfill2 p1 ++ ['0', '0']).length = 6
              simp only [List.length_append, List.length_cons, List.length_nil]
              omega
            · intro c hc
              rcases List.mem_append.mp hc with hm | hm
              · rcases List.mem_append.mp hm with h2 | h2
                · exact hd0 c h2
                · exact hd1 c h2
              · simp only [List.mem_cons, List.not_mem_nil, or_false] at hm
                rcases hm with rfl | rfl <;> decide
          | cons p2 t =>
            simp only [hsp] at hsplit
            obtain ⟨hp0, hp1, hp2⟩ := hsplit
            obtain ⟨hl0, hd0⟩ := zfill2_spec hp0
            obtain ⟨hl1, hd1⟩ := zfill2_spec hp1
            obtain ⟨hl2, hd2⟩ := zfill2_spec hp2
            constructor
            · show (zfill2 p0 ++ zfill2 p1 ++ zfill2 p2).length = 6
              simp only [List.length_append]
              omega
            · intro c hc
              rcases List.mem_append.mp hc with hm | hm
              · rcases List.mem_append.mp hm with h2 | h2
                · exact hd0 c h2
                · exact hd1 c h2
              · exact hd2 c hm

/-! #### The sanitized-merchant block -/

theorem sanitizeRunsB_chars (invalid : Char → Bool) :
    ∀ (cs : List Char) (b : Bool) (c : Char), c ∈ sanitizeRunsB invalid b cs →
      invalid c = false ∨ c = '_' := by
  intro cs
  induction cs with
  | nil => intro b c hc; simp [sanitizeRunsB] at hc
  | cons a rest ih =>
    intro b c hc
    simp only [sanitizeRunsB] at hc
    split_ifs at hc with h1 h2
    · exact ih true c hc
    · rcases List.mem_cons.mp hc with rfl | hm
      · exact Or.inr rfl
      · exact ih true c hm
    · rcases List.mem_cons.mp hc with rfl | hm
      · exact Or.inl (by simpa using h1)
      · exact ih false c hm

theorem sanitizeRunsB_ne_nil (invalid : Char → Bool) (a : Char) (rest : List Char) :
    sanitizeRunsB invalid false (a :: rest) ≠ [] := by
  simp only [sanitizeRunsB]
  split_ifs <;> simp_all

/-- Every character of the sanitized merchant is valid or an underscore. -/
theorem shopOf_chars (s : ReceiptSummary) (invalid : Char → Bool) :
    ∀ c ∈ (shopOf s invalid).data, invalid c = false ∨ c = '_' := by
  intro c hc
  exact sanitizeRunsB_chars invalid _ false c hc

/-- The sanitized merchant is never empty (blank merchants default to
`UNKNOWN` first). -/
theorem shopOf_ne_nil (s : ReceiptSummary) (invalid : Char → Bool) :
    (shopOf s invalid).data ≠ [] := by
  unfold shopOf sanitizeRuns
  by_cases hm : pyStrip s.merchant_name = ""
  · rw [if_pos hm]
    exact sanitizeRunsB_ne_nil invalid _ _
  · rw [if_neg hm]
    show sanitizeRunsB invalid false (pyStrip s.merchant_name).data ≠ []
    cases hdm : (pyStrip s.merchant_name).data with
    | nil => exact absurd (String.ext hdm) hm
    | cons a t => exact sanitizeRunsB_ne_nil invalid a t

/-! #### The identifier format -/

/-- The date block of `build_base_name` for an in-range date is the
eight-digit zero-padded decimal of `y * 10000 + m * 100 + d`. -/
theorem formatYmdCompact_eq {dt : Ymd} (h : dateInRange dt) :
    (formatYmdCompact dt).data = padDigits 8 (dt.y * 10000 + (dt.m * 100 + dt.d)) := by
  obtain ⟨h1, h2, h3, h4, h5, h6⟩ := h
  show natDigits dt.y ++ (padDigits 2 dt.m ++ padDigits 2 dt.d) = _
  rw [natDigits_year h1 h2]
  rw [padDigits_append 2 2 dt.m dt.d (by norm_num; omega)]
  rw [padDigits_append 4 4 dt.y (dt.m * 10 ^ 2 + dt.d) (by norm_num; omega)]
  norm_num

theorem build_base_name_data (r : ReceiptResult) (invalid : Char → Bool) (sysDate : Ymd) :
    (build_base_name r invalid sysDate).data =
      (formatYmdCompact (resolveBaseDate r.summary sysDate)).data ++
        '_' :: ((timePartOf r.summary).data ++ '_' :: (shopOf r.summary invalid).data) := by
  simp [build_base_name, String.data_append]

theorem idFormatOK_of_data {id shop : String} {d8 d6 : List Char}
    (hid : id.data = d8 ++ '_' :: (d6 ++ '_' :: shop.data))
    (h8 : d8.length = 8) (h6 : d6.length = 6)
    (hd8 : ∀ c ∈ d8, c.isDigit = true) (hd6 : ∀ c ∈ d6, c.isDigit = true) :
    idFormatOK id shop = true := by
  have e8 : id.data = (d8 ++ ['_']) ++ (d6 ++ '_' :: shop.data) := by
    rw [hid]; simp
  have e15 : id.data = ((d8 ++ ['_']) ++ d6) ++ ('_' :: shop.data) := by
    rw [hid]; simp
  have e16 : id.data = (((d8 ++ ['_']) ++ d6) ++ ['_']) ++ shop.data := by
    rw [hid]; simp
  have l9 : (d8 ++ ['_']).length = 9 := by simp [h8]
  have l15 : ((d8 ++ ['_']) ++ d6).length = 15 := by simp [h8, h6]
  have l16 : ((((d8 ++ ['_']) ++ d6) ++ ['_'])).length = 16 := by simp [h8, h6]
  have htake8 : id.data.take 8 = d8 := by
    rw [hid, ← h8, List.take_left]
  have hdrop8 : id.data.drop 8 = '_' :: (d6 ++ '_' :: shop.data) := by
    rw [hid, ← h8, List.drop_left]
  have hdrop9 : id.data.drop 9 = d6 ++ '_' :: shop.data := by
    rw [e8, ← l9, List.drop_left]
  have hdrop15 : id.data.drop 15 = '_' :: shop.data := by
    rw [e15, ← l15, List.drop_left]
  have hdrop16 : id.data.drop 16 = shop.data := by
    rw [e16, ← l16, List.drop_left]
  have ht6 : (d6 ++ '_' :: shop.data).take 6 = d6 := by rw [← h6, List.take_left]
  simp only [idFormatOK, htake8, hdrop8, hdrop9, hdrop15, hdrop16, ht6]
  simp [h8, h6, List.all_eq_true]
  exact ⟨hd8, hd6⟩

/-- C7 (amended): for a resolved date whose year has four decimal digits
(1000–9999) and well-formed time fields — the normalized time is
`HH:MM:SS`, or it is blank and the raw time's colon-separated parts each
fit in two digits — the identifier built by `build_base_name` has the
form `YYYYMMDD_HHMMSS_<merchant>` with eight date digits, six time
digits, and a non-empty sanitized merchant in which every invalid
character has been replaced; and for two receipts with the same merchant
whose resolved dates are in that range and strictly ordered, the first
identifier is lexicographically smaller than the second.  (Without the
year-range and time-field conditions the format claim is false, see
`build_base_name_counterexample`.) -/
theorem build_base_name_spec
    (r r2 : ReceiptResult) (invalid : Char → Bool) (sysDate sysDate2 : Ymd)
    (hd : dateInRange (resolveBaseDate r.summary sysDate))
    (ht : timeFieldsWF r.summary)
    (hd2 : dateInRange (resolveBaseDate r2.summary sysDate2))
    (_hmerchant : r2.summary.merchant_name = r.summary.merchant_name)
    (hlt : ymdLt (resolveBaseDate r.summary sysDate) (resolveBaseDate r2.summary sysDate2)) :
    idFormatOK (build_base_name r invalid sysDate) (shopOf r.summary invalid) = true ∧
    (shopOf r.summary invalid).data ≠ [] ∧
    (∀ c ∈ (shopOf r.summary invalid).data, invalid c = false ∨ c = '_') ∧
    build_base_name r invalid sysDate < build_base_name r2 invalid sysDate2 := by
  obtain ⟨ht6, htd⟩ := timePartOf_sixDigits ht
  refine ⟨?_, shopOf_ne_nil _ _, shopOf_chars _ _, ?_⟩
  · refine idFormatOK_of_data (build_base_name_data r invalid sysDate) ?_ ht6 ?_ htd
    · rw [formatYmdCompact_eq hd]
      exact padDigits_length 8 _
    · rw [formatYmdCompact_eq hd]
      exact padDigits_digits 8 _
  · obtain ⟨a1, a2, a3, a4, a5, a6⟩ := hd
    obtain ⟨b1, b2, b3, b4, b5, b6⟩ := hd2
    have hN : (resolveBaseDate r.summary sysDate).y * 10000 +
          ((resolveBaseDate r.summary sysDate).m * 100 + (resolveBaseDate r.summary sysDate).d) <
        (resolveBaseDate r2.summary sysDate2).y * 10000 +
          ((resolveBaseDate r2.summary sysDate2).m * 100 +
            (resolveBaseDate r2.summary sysDate2).d) := by
      unfold ymdLt at hlt
      omega
    have hlex8 := padDigits_lt 8 _ _ hN (by norm_num; omega)
    apply String.lt_iff_toList_lt.mpr
    show List.Lex (· < ·) (build_base_name r invalid sysDate).data
      (build_base_name r2 invalid sysDate2).data
    rw [build_base_name_data, build_base_name_data,
      formatYmdCompact_eq ⟨a1, a2, a3, a4, a5, a6⟩,
      formatYmdCompact_eq ⟨b1, b2, b3, b4, b5, b6⟩]
    exact lex_append_of_lex hlex8 (by rw [padDigits_length, padDigits_length]) _ _

/-- Two concrete receipts for the identifier theorem: same merchant,
normalized dates 2026-01-07 and 2026-02-01, normalized times. -/
def exStoreR1 : ReceiptResult :=
  { source_file := "a.jpg",
    summary := { merchant_name := "Store A", date_iso := "2026-01-07",
                 time_norm := "12:34:05" } }

def exStoreR2 : ReceiptResult :=
  { source_file := "b.jpg",
    summary := { merchant_name := "Store A", date_iso := "2026-02-01",
                 time_norm := "09:00:00" } }

theorem build_base_name_spec_witness :
    idFormatOK (build_base_name exStoreR1 (fun _ => false) ⟨2000, 1, 1⟩)
        (shopOf exStoreR1.summary (fun _ => false)) = true ∧
    (shopOf exStoreR1.summary (fun _ => false)).data ≠ [] ∧
    (∀ c ∈ (shopOf exStoreR1.summary (fun _ => false)).data,
      (fun _ => false) c = false ∨ c = '_') ∧
    build_base_name exStoreR1 (fun _ => false) ⟨2000, 1, 1⟩ <
      build_base_name exStoreR2 (fun _ => false) ⟨2000, 1, 1⟩ :=
  build_base_name_spec exStoreR1 exStoreR2 (fun _ => false) ⟨2000, 1, 1⟩ ⟨2000, 1, 1⟩
    (by unfold dateInRange; decide) (Or.inl (by decide)) (by unfold dateInRange; decide) rfl
    (by unfold ymdLt; decide)
